import Mathlib

/-!
# netgear-genie-stats: the table-to-record parser

A shallow embedding of `src/main.go`: the record `routerStat` with its derived
predicates and its two renderers, the row mapper `makeStat`, and the token
loop `parseStats`, together with the routines of the Go libraries they call.

Conventions of the embedding

* A Go `string` is a Lean `String`, a sequence of Unicode code points, so the
  texts of the embedding are the valid UTF-8 texts.  The byte-level routines
  the program calls (`strings.HasPrefix`, `strings.Replace`,
  `strconv.ParseInt`, `time.ParseDuration`) only test for ASCII bytes, and
  read the same on code points as on the UTF-8 bytes.
* `int64` and `time.Duration` values are `Int`, `uint64` values are `Nat`;
  the bounds and the wrap-around of the machine types are written out where
  the libraries compute with them.
* A pointer that may be `nil` (`*routerStat`) is an `Option`.
* The markup enters `parseStats` as the list of tokens that the tokenizer of
  `golang.org/x/net/html` yields for it.
-/

namespace Genie

/-- Go's `string`. -/
abbrev GoString := String

/-! ## strings.HasPrefix -/

/-- Go `strings.HasPrefix(s, pre)`: `len(s) >= len(pre) && s[:len(pre)] == pre`. -/
def HasPrefix (s pre : GoString) : Bool :=
  pre.data.isPrefixOf s.data

/-! ## strconv.ParseInt(s, 10, 64) -/

/-- The two error kinds of package `strconv`. -/
inductive NumError where
  | ErrSyntax
  | ErrRange
  deriving DecidableEq, Repr

/-- Largest `uint64`. -/
def maxUint64 : Nat := 2 ^ 64 - 1

/-- The digit loop of `strconv.ParseUint(s, 10, 64)`, with `n` the value
accumulated so far.  `cutoff` is `maxUint64/10 + 1` and `maxVal` is
`1<<64 - 1`; the `uint64` arithmetic is written with its wrap-around.  A byte
that is not a decimal digit is a syntax error (a letter is a digit value of at
least 10, which is not below the base; any other byte is no digit at all). -/
def parseUintLoop : List Char → Nat → Nat × Option NumError
  | [], n => (n, none)
  | c :: cs, n =>
    if '0' ≤ c ∧ c ≤ '9' then
      let d := c.toNat - '0'.toNat
      if n ≥ maxUint64 / 10 + 1 then
        (maxUint64, some NumError.ErrRange)
      else
        let n10 := (n * 10) % 2 ^ 64
        let n1 := (n10 + d) % 2 ^ 64
        if n1 < n10 ∨ n1 > maxUint64 then
          (maxUint64, some NumError.ErrRange)
        else
          parseUintLoop cs n1
    else
      (0, some NumError.ErrSyntax)

/-- Go `strconv.ParseUint(s, 10, 64)`. -/
def ParseUint (s : List Char) : Nat × Option NumError :=
  match s with
  | [] => (0, some NumError.ErrSyntax)
  | _ => parseUintLoop s 0

/-- Go `strconv.ParseInt(s, 10, 64)`: an optional sign, then `ParseUint`; a
syntax error gives 0, a value out of range gives the nearest `int64` bound
together with `ErrRange`. -/
def ParseInt (s : GoString) : Int × Option NumError :=
  match s.data with
  | [] => (0, some NumError.ErrSyntax)
  | c :: cs =>
    let neg : Bool := c = '-'
    let body := if c = '+' ∨ c = '-' then cs else c :: cs
    let r := ParseUint body
    if r.2 = some NumError.ErrSyntax then
      (0, r.2)
    else
      let cutoff : Nat := 2 ^ 63
      if !neg ∧ r.1 ≥ cutoff then
        ((cutoff : Int) - 1, some NumError.ErrRange)
      else if neg ∧ r.1 > cutoff then
        (-(cutoff : Int), some NumError.ErrRange)
      else
        (if neg then -(r.1 : Int) else (r.1 : Int), none)

/-- Source `parseNumber`: the value of `strconv.ParseInt`, its error dropped. -/
def parseNumber (input : GoString) : Int :=
  (ParseInt input).1

/-! ## time.ParseDuration -/

/-- Go `time.leadingInt`: the leading decimal digits of `s` as a `uint64`
(`x` is the value so far) and the rest of `s`; `none` is `errLeadingInt`
(the value would exceed `1<<63`). -/
def leadingInt : List Char → Nat → Option (Nat × List Char)
  | [], x => some (x, [])
  | c :: cs, x =>
    if c < '0' ∨ c > '9' then some (x, c :: cs)
    else if x > 2 ^ 63 / 10 then none
    else
      let x1 := (x * 10 + c.toNat - '0'.toNat) % 2 ^ 64
      if x1 > 2 ^ 63 then none else leadingInt cs x1

/-- Go `time.leadingFraction`: the leading decimal digits of `s` as a
`uint64` numerator `x` over the `float64` power of ten `scale`, and the rest
of `s`; digits past the capacity of `x` are read and dropped. -/
def leadingFraction : List Char → Nat → Float → Bool → Nat × Float × List Char
  | [], x, scale, _ => (x, scale, [])
  | c :: cs, x, scale, overflow =>
    if c < '0' ∨ c > '9' then (x, scale, c :: cs)
    else if overflow then leadingFraction cs x scale overflow
    else if x > (2 ^ 63 - 1) / 10 then leadingFraction cs x scale true
    else
      let y := (x * 10 + c.toNat - '0'.toNat) % 2 ^ 64
      if y > 2 ^ 63 then leadingFraction cs x scale true
      else leadingFraction cs y (scale * 10) false

/-- Go `time.unitMap`: nanoseconds per unit. -/
def unitMap (u : List Char) : Option Nat :=
  if u = ['n', 's'] then some 1
  else if u = ['u', 's'] then some 1000
  else if u = ['µ', 's'] then some 1000
  else if u = ['μ', 's'] then some 1000
  else if u = ['m', 's'] then some 1000000
  else if u = ['s'] then some 1000000000
  else if u = ['m'] then some 60000000000
  else if u = ['h'] then some 3600000000000
  else none

/-- Whether a byte ends a unit name in `time.ParseDuration`: `.` or a digit. -/
def endsUnit (c : Char) : Bool :=
  c = '.' ∨ ('0' ≤ c ∧ c ≤ '9')

/-- The `uint64(float64(f) * (float64(unit) / scale))` of
`time.ParseDuration`: the nanoseconds of the fractional part. -/
def fracNanos (f unit : Nat) (scale : Float) : Nat :=
  (Float.ofNat f * (Float.ofNat unit / scale)).toUInt64.toNat

/-- The step "consume `(\.[0-9]*)?`" of `time.ParseDuration` on what is left
after the integer part: the fraction `f` over `scale`, the rest of the text,
and `post`, whether a digit was read after the period. -/
def fractionPart (s1 : List Char) : Nat × Float × List Char × Bool :=
  match s1 with
  | '.' :: t =>
    let r := leadingFraction t 0 1 false
    (r.1, r.2.1, r.2.2, t.length != r.2.2.length)
  | _ => (0, 1, s1, false)

/-- One turn of the `for s != ""` loop of `time.ParseDuration` on the
non-empty `s`, up to the update of the sum: the term `[0-9]*(\.[0-9]*)?[a-z]+`
at the front of `s` in nanoseconds (the `v` that the loop adds to `d`) and the
rest of `s`; `none` is any of the error returns in between. -/
def durationTerm (s : List Char) : Option (Nat × List Char) :=
  match s with
  | [] => none
  | c :: _ =>
    if !endsUnit c then none
    else
      match leadingInt s 0 with
      | none => none
      | some (v, s1) =>
        let pre : Bool := s.length != s1.length
        let fr := fractionPart s1
        let f := fr.1
        let scale := fr.2.1
        let s2 := fr.2.2.1
        let post := fr.2.2.2
        if !pre && !post then none
        else
          let u := s2.takeWhile (fun c => !endsUnit c)
          let s3 := s2.dropWhile (fun c => !endsUnit c)
          if u = [] then none
          else
            match unitMap u with
            | none => none
            | some unit =>
              if v > 2 ^ 63 / unit then none
              else
                let v1 := (v * unit) % 2 ^ 64
                let v2 := if f > 0 then (v1 + fracNanos f unit scale) % 2 ^ 64 else v1
                if f > 0 ∧ v2 > 2 ^ 63 then none
                else some (v2, s3)

/-- The `for s != ""` loop of `time.ParseDuration` with `d` the `uint64` sum
so far; `none` is any of its error returns.  Every turn of the loop consumes
at least one byte, so `fuel` above the length of `s` never runs out
(`parseDurationLoop_fuel` below). -/
def parseDurationLoop : Nat → List Char → Nat → Option Nat
  | 0, _, _ => none
  | fuel + 1, s, d =>
    match s with
    | [] => some d
    | _ :: _ =>
      match durationTerm s with
      | none => none
      | some (v, s3) =>
        let d1 := (d + v) % 2 ^ 64
        if d1 > 2 ^ 63 then none
        else parseDurationLoop fuel s3 d1

/-- Go `time.ParseDuration(s)`: `[-+]?([0-9]*(\.[0-9]*)?[a-z]+)+`, or `"0"`.
`none` is an error return; every error return of the library carries the
value 0. -/
def ParseDuration (s : GoString) : Option Int :=
  let neg : Bool := match s.data with
    | c :: _ => c = '-'
    | [] => false
  let body : List Char := match s.data with
    | c :: cs => if c = '-' ∨ c = '+' then cs else c :: cs
    | [] => []
  if body = ['0'] then some 0
  else if body = [] then none
  else
    match parseDurationLoop (body.length + 1) body 0 with
    | none => none
    | some d =>
      if neg then some (-(d : Int))
      else if d > 2 ^ 63 - 1 then none
      else some (d : Int)

/-- Source `parseDuration`: the value of `time.ParseDuration`, its error
dropped (0 on error). -/
def parseDuration (input : GoString) : Int :=
  (ParseDuration input).getD 0

/-! ## The record -/

/-- Source `routerStat`. -/
structure routerStat where
  Port : GoString := ""
  Status : GoString := ""
  TxPackets : Int := 0
  RxPackets : Int := 0
  Collisions : Int := 0
  TxBytesPerSecond : Int := 0
  RxBytesPerSecond : Int := 0
  Uptime : Int := 0
  deriving DecidableEq, Repr

/-- The `switch len(input)` of source `makeStat`, applied to the record
`stat` whose `Port` is already set: a row of 3 values fills port, status and
uptime, a row of 8 values fills every field, any other row leaves `stat` as it
is (the switch has no default case). -/
def fillByShape (stat : routerStat) (input : List GoString) : routerStat :=
  match input with
  | [v0, v1, v2] =>
    { stat with Port := v0, Status := v1, Uptime := parseDuration v2 }
  | [v0, v1, v2, v3, v4, v5, v6, v7] =>
    { stat with
      Port := v0
      Status := v1
      TxPackets := parseNumber v2
      RxPackets := parseNumber v3
      Collisions := parseNumber v4
      TxBytesPerSecond := parseNumber v5
      RxBytesPerSecond := parseNumber v6
      Uptime := parseDuration v7 }
  | _ => stat

/-- The "LAN shares input/output stats" step of source `makeStat`. -/
def shareLAN (stat : routerStat) (previous : Option routerStat) : routerStat :=
  match previous with
  | some prev =>
    if HasPrefix prev.Port "LAN" ∧ HasPrefix stat.Port "LAN" then
      { stat with
        TxPackets := prev.TxPackets
        RxPackets := prev.RxPackets
        Collisions := prev.Collisions
        TxBytesPerSecond := prev.TxBytesPerSecond
        RxBytesPerSecond := prev.RxBytesPerSecond }
    else stat
  | none => stat

/-- Source `makeStat`: `none` is the `nil` result. -/
def makeStat (input : List GoString) (previous : Option routerStat) : Option routerStat :=
  match input with
  | [] => none
  | v0 :: _ =>
    let stat : routerStat := { Port := v0 }
    let stat := fillByShape stat input
    some (shareLAN stat previous)

/-! ## Case folding: strings.EqualFold, strings.ToUpper -/

/-- Go `unicode.SimpleFold` on the code points this program can compare: the
ASCII letters, and the two runes outside ASCII whose fold orbit holds an ASCII
letter (U+212A KELVIN SIGN with `K`, `k`; U+017F LONG S with `S`, `s`).  Every
other rune is left fixed; `EqualFold` below only folds the smaller rune of a
pair, and every call of the program has an ASCII literal on one side, so the
library table is never consulted outside these orbits. -/
def SimpleFold (r : Char) : Char :=
  if r = 'K' then 'k'
  else if r = 'k' then Char.ofNat 0x212A
  else if r = Char.ofNat 0x212A then 'K'
  else if r = 'S' then 's'
  else if r = 's' then Char.ofNat 0x017F
  else if r = Char.ofNat 0x017F then 'S'
  else if 'A' ≤ r ∧ r ≤ 'Z' then Char.ofNat (r.toNat + 32)
  else if 'a' ≤ r ∧ r ≤ 'z' then Char.ofNat (r.toNat - 32)
  else r

/-- The loop `for r != sr && r < tr { r = unicode.SimpleFold(r) }` of
`strings.EqualFold`; an orbit has at most four runes, which bounds the loop. -/
def foldUpTo : Nat → Char → Char → Char → Char
  | 0, _, _, r => r
  | fuel + 1, sr, tr, r =>
    if r ≠ sr ∧ r < tr then foldUpTo fuel sr tr (SimpleFold r) else r

/-- One pair of runes in `strings.EqualFold`. -/
def equalFoldRune (sr tr : Char) : Bool :=
  if tr = sr then true
  else
    let lo := if tr < sr then tr else sr
    let hi := if tr < sr then sr else tr
    if hi.toNat < 0x80 then
      'A' ≤ lo ∧ lo ≤ 'Z' ∧ hi.toNat = lo.toNat + ('a'.toNat - 'A'.toNat)
    else
      foldUpTo 4 lo hi (SimpleFold lo) = hi

/-- The rune-by-rune comparison of `strings.EqualFold`. -/
def equalFoldRunes : List Char → List Char → Bool
  | [], [] => true
  | [], _ :: _ => false
  | _ :: _, [] => false
  | sr :: s, tr :: t => equalFoldRune sr tr && equalFoldRunes s t

/-- Go `strings.EqualFold(s, t)`: equality under Unicode simple case folding. -/
def EqualFold (s t : GoString) : Bool :=
  equalFoldRunes s.data t.data

/-- Go `unicode.ToUpper` on ASCII, and on the two runes outside ASCII whose
upper case is an ASCII letter (U+0131 gives `I`, U+017F gives `S`).  The
library maps every other rune outside ASCII to a rune outside ASCII; it is
left fixed here, which no search for an ASCII literal can tell apart. -/
def toUpperRune (r : Char) : Char :=
  if 'a' ≤ r ∧ r ≤ 'z' then Char.ofNat (r.toNat - 32)
  else if r = Char.ofNat 0x0131 then 'I'
  else if r = Char.ofNat 0x017F then 'S'
  else r

/-- Go `strings.ToUpper(s)`. -/
def ToUpper (s : GoString) : GoString :=
  String.mk (s.data.map toUpperRune)

/-- Whether `sub` occurs in `s` at some position. -/
def containsAt (sub : List Char) : List Char → Bool
  | [] => sub.isPrefixOf []
  | c :: cs => sub.isPrefixOf (c :: cs) || containsAt sub cs

/-- Go `strings.Contains(s, substr)`. -/
def Contains (s substr : GoString) : Bool :=
  containsAt substr.data s.data

/-- Go `strings.Replace(s, old, new, -1)` for an `old` of one byte: every
occurrence of `old` becomes `new`. -/
def ReplaceByte (s : GoString) (old : Char) (new : GoString) : GoString :=
  String.mk (s.data.flatMap (fun c => if c = old then new.data else [c]))

/-! ## Derived predicates of the record -/

/-- Source `routerStat.IsDown`. -/
def routerStat.IsDown (s : routerStat) : Bool :=
  EqualFold s.Status "Link Down"

/-- Source `routerStat.Classifiction`. -/
def routerStat.Classifiction (s : routerStat) : GoString :=
  if Contains (ToUpper s.Port) "WLAN" then "Wireless" else "Wired"

/-- Source `routerStat.Availability`. -/
def routerStat.Availability (s : routerStat) : GoString :=
  if HasPrefix (ToUpper s.Port) "WAN" then "External" else "Internal"

/-- Source `routerStat.Name`: backslashes are doubled, then every space gets
a backslash in front. -/
def routerStat.Name (s : routerStat) : GoString :=
  ReplaceByte (ReplaceByte s.Port '\\' "\\\\") ' ' "\\ "

/-! ## Rendering: fmt.Sprintf with the verbs %s, %d, %v and %q -/

/-- The verb `%d` on an `int64`: decimal digits, a `-` in front of a negative
value. -/
def fmtD (i : Int) : GoString :=
  if i < 0 then "-" ++ Nat.repr i.natAbs else Nat.repr i.natAbs

/-- The loop of Go `time.fmtFrac`: the low `prec` decimal digits of `v` are
written in front of `acc`, trailing zeros left out; the result also carries
`v / 10^prec` and whether a digit was written. -/
def fmtFracLoop : Nat → Nat → Bool → List Char → List Char × Nat × Bool
  | 0, v, print, acc => (acc, v, print)
  | prec + 1, v, print, acc =>
    let digit := v % 10
    let print1 := print || digit != 0
    fmtFracLoop prec (v / 10) print1
      (if print1 then Char.ofNat (digit + '0'.toNat) :: acc else acc)

/-- Go `time.fmtFrac`: the fraction `v / 10^prec` in front of `acc`, with its
decimal point, nothing at all when the fraction is zero. -/
def fmtFrac (acc : List Char) (v prec : Nat) : List Char × Nat :=
  let r := fmtFracLoop prec v false acc
  (if r.2.2 then '.' :: r.1 else r.1, r.2.1)

/-- Go `time.fmtInt`: the decimal digits of `v` in front of `acc`. -/
def fmtInt (acc : List Char) (v : Nat) : List Char :=
  (Nat.repr v).data ++ acc

/-- Go `time.Duration.String`, which the verb `%v` calls: hours, minutes and
seconds as in `72h3m0.5s`, a smaller unit below one second, `0s` for zero. -/
def DurationString (d : Int) : GoString :=
  let u := d.natAbs
  let body : List Char :=
    if u < 1000000000 then
      if u = 0 then ['0', 's']
      else if u < 1000 then fmtInt ['n', 's'] u
      else if u < 1000000 then
        let r := fmtFrac ['µ', 's'] u 3
        fmtInt r.1 r.2
      else
        let r := fmtFrac ['m', 's'] u 6
        fmtInt r.1 r.2
    else
      let r := fmtFrac ['s'] u 9
      let acc := fmtInt r.1 (r.2 % 60)
      let m := r.2 / 60
      if m > 0 then
        let acc1 := fmtInt ('m' :: acc) (m % 60)
        let h := m / 60
        if h > 0 then fmtInt ('h' :: acc1) h else acc1
      else acc
  String.mk (if d < 0 then '-' :: body else body)

/-- The verb `%v` on a `bool`. -/
def fmtBool (b : Bool) : GoString :=
  if b then "true" else "false"

/-- One lower-case hexadecimal digit. -/
def lowerhex (n : Nat) : Char :=
  if n % 16 < 10 then Char.ofNat (n % 16 + '0'.toNat)
  else Char.ofNat (n % 16 - 10 + 'a'.toNat)

/-- Go `strconv.IsPrint`: exact up to U+00FF; above, the library searches its
tables of printable ranges, which enter here as the parameter `isPrintTable`. -/
def IsPrint (isPrintTable : Char → Bool) (r : Char) : Bool :=
  if r.toNat ≤ 0xFF then
    if 0x20 ≤ r.toNat ∧ r.toNat ≤ 0x7E then true
    else if 0xA1 ≤ r.toNat ∧ r.toNat ≤ 0xFF then r.toNat != 0xAD
    else false
  else isPrintTable r

/-- Go `strconv.appendEscapedRune` as `strconv.Quote` calls it (quote `"`,
not ASCII-only, not graphic-only), for a valid rune. -/
def escapedRune (isPrintTable : Char → Bool) (r : Char) : List Char :=
  if r = '"' ∨ r = '\\' then ['\\', r]
  else if IsPrint isPrintTable r then [r]
  else if r.toNat = 7 then ['\\', 'a']
  else if r.toNat = 8 then ['\\', 'b']
  else if r.toNat = 12 then ['\\', 'f']
  else if r = '\n' then ['\\', 'n']
  else if r = '\r' then ['\\', 'r']
  else if r = '\t' then ['\\', 't']
  else if r.toNat = 11 then ['\\', 'v']
  else if r.toNat < 0x20 ∨ r.toNat = 0x7F then
    ['\\', 'x', lowerhex (r.toNat / 16), lowerhex r.toNat]
  else if r.toNat < 0x10000 then
    ['\\', 'u', lowerhex (r.toNat / 4096), lowerhex (r.toNat / 256),
      lowerhex (r.toNat / 16), lowerhex r.toNat]
  else
    ['\\', 'U', lowerhex (r.toNat / 268435456), lowerhex (r.toNat / 16777216),
      lowerhex (r.toNat / 1048576), lowerhex (r.toNat / 65536),
      lowerhex (r.toNat / 4096), lowerhex (r.toNat / 256),
      lowerhex (r.toNat / 16), lowerhex r.toNat]

/-- Go `strconv.Quote(s)`, which the verb `%q` calls on a string. -/
def Quote (isPrintTable : Char → Bool) (s : GoString) : GoString :=
  String.mk ('"' :: (s.data.flatMap (escapedRune isPrintTable) ++ ['"']))

/-- The call `fmt.Sprintf("Port: %s; Status: %s; TxPkts: %d; RxPkts: %d;
Collisions: %d; TxB/s: %d; RxB/s: %d; Uptime: %v", ...)` that both branches of
source `routerStat.String` make, as a function of its eight operands. -/
def sprintfHuman (port status : GoString) (tx rx coll txb rxb uptime : Int) : GoString :=
  "Port: " ++ port ++ "; Status: " ++ status ++ "; TxPkts: " ++ fmtD tx ++
    "; RxPkts: " ++ fmtD rx ++ "; Collisions: " ++ fmtD coll ++ "; TxB/s: " ++ fmtD txb ++
    "; RxB/s: " ++ fmtD rxb ++ "; Uptime: " ++ DurationString uptime

/-- Source `routerStat.String`. -/
def routerStat.String (s : routerStat) : GoString :=
  if s.IsDown then
    sprintfHuman s.Port s.Status 0 0 0 0 0 s.Uptime
  else
    sprintfHuman s.Port s.Status s.TxPackets s.RxPackets s.Collisions
      s.TxBytesPerSecond s.RxBytesPerSecond s.Uptime

/-- The call `fmt.Sprintf("router,address=%s,name=%s,classification=%s,
availability=%s tx_packets=%di,rx_packets=%di,collisions=%di,tx_bytes_sec=%di,
rx_bytes_sec=%di,status=%q,down=%v", ...)` that both branches of source
`routerStat.LineFormat` make, as a function of its eleven operands. -/
def sprintfLine (isPrintTable : Char → Bool) (address name classification availability : GoString)
    (tx rx coll txb rxb : Int) (status : GoString) (down : Bool) : GoString :=
  "router,address=" ++ address ++ ",name=" ++ name ++ ",classification=" ++ classification ++
    ",availability=" ++ availability ++ " tx_packets=" ++ fmtD tx ++ "i,rx_packets=" ++ fmtD rx ++
    "i,collisions=" ++ fmtD coll ++ "i,tx_bytes_sec=" ++ fmtD txb ++ "i,rx_bytes_sec=" ++
    fmtD rxb ++ "i,status=" ++ Quote isPrintTable status ++ ",down=" ++ fmtBool down

/-- Source `routerStat.LineFormat`. -/
def routerStat.LineFormat (isPrintTable : Char → Bool) (s : routerStat) (address : GoString) :
    GoString :=
  if s.IsDown then
    sprintfLine isPrintTable address s.Name s.Classifiction s.Availability
      0 0 0 0 0 s.Status s.IsDown
  else
    sprintfLine isPrintTable address s.Name s.Classifiction s.Availability
      s.TxPackets s.RxPackets s.Collisions s.TxBytesPerSecond s.RxBytesPerSecond
      s.Status s.IsDown

/-! ## The token stream of golang.org/x/net/html

`parseStats` pulls tokens from an `html.Tokenizer` until the tokenizer
returns `ErrorToken`, which it then returns on every further call.  A
markup text therefore enters the embedding as the finite list of tokens the
tokenizer yields before its first `ErrorToken`; the end of the list is
`ErrorToken`. -/

/-- The token types of package `html` other than `ErrorToken`. -/
inductive TokenType where
  | TextToken
  | StartTagToken
  | EndTagToken
  | SelfClosingTagToken
  | CommentToken
  | DoctypeToken
  deriving DecidableEq, Repr

/-- Go `html.Attribute`. -/
structure Attribute where
  Namespace : GoString := ""
  Key : GoString
  Val : GoString
  deriving DecidableEq, Repr

/-- One token as the program sees it: the type that `Next()` returns (`Kind`),
the `Data` and `Attr` of `Token()` (for a tag, `Data` is the tag name in lower
case), and the bytes of `Raw()`. -/
structure Token where
  Kind : TokenType
  Data : GoString := ""
  Attr : List Attribute := []
  Raw : GoString := ""
  deriving DecidableEq, Repr

/-! ## parseStats -/

/-- The local variables of source `parseStats`.  `rowNumber` and `colNumber`
are Go `int`s that only count tags of the input upward from 0; a Go string
holds fewer than `2^63` bytes, so neither can overflow. -/
structure ParseState where
  stats : List routerStat := []
  rowNumber : Nat := 0
  colNumber : Nat := 0
  dataValues : List GoString := []
  previousStat : Option routerStat := none
  deriving DecidableEq, Repr

/-- The attribute loop of the `span` case: whether some attribute has the key
`class` and the value `thead` or `ttext`, all three under `EqualFold`. -/
def spanFound (attrs : List Attribute) : Bool :=
  attrs.any (fun attr =>
    EqualFold attr.Key "class" && (EqualFold attr.Val "thead" || EqualFold attr.Val "ttext"))

/-- The `tr` end tag of source `parseStats`: the row is handed to `makeStat`,
a record that comes back is appended and becomes the previous record, and the
values are reset. -/
def endRow (st : ParseState) : ParseState :=
  match makeStat st.dataValues st.previousStat with
  | some stat =>
    { st with stats := st.stats ++ [stat], previousStat := some stat, dataValues := [] }
  | none => { st with dataValues := [] }

/-- Go `error`; `none` in an `Option GoError` is `nil`. -/
abbrev GoError := GoString

/-- The `for` loop of source `parseStats` from the state `st` on the tokens
still to come. -/
def parseLoop : ParseState → List Token → List routerStat × Option GoError
  | st, [] => (st.stats, none)
  | st, tok :: rest =>
    match tok.Kind with
    | TokenType.StartTagToken =>
      if tok.Data = "table" then
        parseLoop { st with rowNumber := 0 } rest
      else if tok.Data = "tr" then
        parseLoop { st with rowNumber := st.rowNumber + 1, colNumber := 0, dataValues := [] } rest
      else if tok.Data = "td" then
        parseLoop { st with colNumber := st.colNumber + 1 } rest
      else if tok.Data = "span" then
        if st.rowNumber = 1 then parseLoop st rest
        else if !spanFound tok.Attr then parseLoop st rest
        else
          match rest with
          | [] => (st.stats, none)
          | inner :: rest1 =>
            if inner.Kind ≠ TokenType.TextToken then parseLoop st rest1
            else parseLoop { st with dataValues := st.dataValues ++ [inner.Raw] } rest1
      else parseLoop st rest
    | TokenType.EndTagToken =>
      if tok.Data = "tr" then parseLoop (endRow st) rest
      else parseLoop st rest
    | _ => parseLoop st rest

/-- Source `parseStats`, on the token stream of its input. -/
def parseStats (tokens : List Token) : List routerStat × Option GoError :=
  parseLoop {} tokens

/-! ## Vocabulary of the statements -/

/-- The LAN-pairing rule of `makeStat` does not apply to a row whose first
value is `v0` after the record `previous`: there is no previous record, or
the previous port or `v0` does not start with "LAN". -/
def noPairing (v0 : GoString) (previous : Option routerStat) : Prop :=
  ∀ p, previous = some p → HasPrefix p.Port "LAN" = false ∨ HasPrefix v0 "LAN" = false

/-- The record `s` with the five traffic counters of `p`. -/
def withCounters (s p : routerStat) : routerStat :=
  { s with
    TxPackets := p.TxPackets
    RxPackets := p.RxPackets
    Collisions := p.Collisions
    TxBytesPerSecond := p.TxBytesPerSecond
    RxBytesPerSecond := p.RxBytesPerSecond }

/-- The record `s` with its five traffic counters set to 0. -/
def zeroCounters (s : routerStat) : routerStat :=
  { s with
    TxPackets := 0
    RxPackets := 0
    Collisions := 0
    TxBytesPerSecond := 0
    RxBytesPerSecond := 0 }

/-- A start tag named `name`, whatever its attributes. -/
def isStartTag (tok : Token) (name : GoString) : Prop :=
  tok.Kind = TokenType.StartTagToken ∧ tok.Data = name

/-- An end tag named `name`. -/
def isEndTag (tok : Token) (name : GoString) : Prop :=
  tok.Kind = TokenType.EndTagToken ∧ tok.Data = name

instance (tok : Token) (name : GoString) : Decidable (isStartTag tok name) := by
  unfold isStartTag; infer_instance

instance (tok : Token) (name : GoString) : Decidable (isEndTag tok name) := by
  unfold isEndTag; infer_instance

/-- A token that may stand inside a row without opening or closing a row or a
table: anything but a `table` or `tr` start tag and a `tr` end tag.  The `td`
and `span` tags and the text tokens of a cell are of this kind. -/
def insideRow (tok : Token) : Prop :=
  ¬ isStartTag tok "table" ∧ ¬ isStartTag tok "tr" ∧ ¬ isEndTag tok "tr"

instance (tok : Token) : Decidable (insideRow tok) := by
  unfold insideRow; infer_instance

/-- A decimal digit byte `0` .. `9`. -/
def isDigit (c : Char) : Bool :=
  '0' ≤ c ∧ c ≤ '9'

/-- The number written by the decimal digits at the front of a text, read
after the digits of `n`: each digit `d` turns the value `n` into `10 * n + d`,
and the first byte that is no digit ends the number. -/
def digitRun : Nat → List Char → Nat
  | n, [] => n
  | n, c :: cs => if isDigit c then digitRun (n * 10 + (c.toNat - '0'.toNat)) cs else n

/-- A text with its optional sign `+` or `-` taken off: whether the sign is
`-`, and what follows the sign. -/
def splitSign (s : GoString) : Bool × List Char :=
  match s.data with
  | [] => (false, [])
  | c :: cs => if c = '-' then (true, cs) else if c = '+' then (false, cs) else (false, c :: cs)

/-- The integer that a text denotes as a base-10 literal: an optional sign
followed by one or more decimal digits and nothing else; `none` for any other
text. -/
def literalValue (s : GoString) : Option Int :=
  let sb := splitSign s
  if sb.2 ≠ [] ∧ sb.2.all isDigit = true then
    some (if sb.1 then -(digitRun 0 sb.2 : Int) else (digitRun 0 sb.2 : Int))
  else none

/-- Smallest `int64`. -/
def minInt64 : Int := -(2 ^ 63)

/-- Largest `int64`. -/
def maxInt64 : Int := 2 ^ 63 - 1

/-- The five traffic counters of a record are all greater than or equal to 0. -/
def nonNegCounters (r : routerStat) : Prop :=
  0 ≤ r.TxPackets ∧ 0 ≤ r.RxPackets ∧ 0 ≤ r.Collisions ∧
    0 ≤ r.TxBytesPerSecond ∧ 0 ≤ r.RxBytesPerSecond

instance (r : routerStat) : Decidable (nonNegCounters r) := by
  unfold nonNegCounters; infer_instance

/-- The escaping of a port label in one pass over its characters: a backslash
becomes two backslashes, a space becomes a backslash followed by a space, and
any other character is copied. -/
def escapeSinglePass : List Char → List Char
  | [] => []
  | c :: cs =>
    if c = '\\' then '\\' :: '\\' :: escapeSinglePass cs
    else if c = ' ' then '\\' :: ' ' :: escapeSinglePass cs
    else c :: escapeSinglePass cs

/-- The character `c` is the upper-case ASCII letter `lit` or its lower-case
form. -/
def letterIgnoringCase (lit c : Char) : Bool :=
  c = lit ∨ c.toNat = lit.toNat + 32

/-- The text `w` is the upper-case ASCII word `lit` up to the case of each
letter. -/
def matchesIgnoringCase : List Char → List Char → Bool
  | [], [] => true
  | l :: ls, c :: cs => letterIgnoringCase l c && matchesIgnoringCase ls cs
  | _, _ => false

/-- The text `s` contains the upper-case ASCII word `lit` ignoring case. -/
def containsIgnoringCase (lit s : List Char) : Prop :=
  ∃ pre w post, s = pre ++ w ++ post ∧ matchesIgnoringCase lit w = true

/-- The text `s` starts with the upper-case ASCII word `lit` ignoring case. -/
def startsWithIgnoringCase (lit s : List Char) : Prop :=
  ∃ w post, s = w ++ post ∧ matchesIgnoringCase lit w = true

/-- The five traffic counters of `b` equal those of `a`. -/
def sameCounters (a b : routerStat) : Prop :=
  b.TxPackets = a.TxPackets ∧ b.RxPackets = a.RxPackets ∧ b.Collisions = a.Collisions ∧
    b.TxBytesPerSecond = a.TxBytesPerSecond ∧ b.RxBytesPerSecond = a.RxBytesPerSecond

/-- The LAN-pairing relation between a record `a` and the record `b` right
after it: when both ports start with "LAN", `b` carries the counters of `a`. -/
def lanPaired (a b : routerStat) : Prop :=
  HasPrefix a.Port "LAN" = true → HasPrefix b.Port "LAN" = true → sameCounters a b

/-- The attributes hold a class attribute whose value is "thead" or "ttext",
the key and the value being compared ignoring case as `strings.EqualFold`
does. -/
def hasRecognizedClass (attrs : List Attribute) : Prop :=
  ∃ a ∈ attrs, EqualFold a.Key "class" = true ∧
    (EqualFold a.Val "thead" = true ∨ EqualFold a.Val "ttext" = true)

instance (attrs : List Attribute) : Decidable (hasRecognizedClass attrs) := by
  unfold hasRecognizedClass; infer_instance

/-- A token that the loop passes over in any row without reading a value: it
opens or closes no row or table, and if it is a `span` start tag it has no
recognized class. -/
def filler (tok : Token) : Prop :=
  insideRow tok ∧ (isStartTag tok "span" → ¬ hasRecognizedClass tok.Attr)

instance (tok : Token) : Decidable (filler tok) := by
  unfold filler; infer_instance

/-- The markup of one cell of a data row: a recognized `span` start tag
immediately followed by a text token, with filler tokens (the `td` tags, the
`span` end tag) in front and behind. -/
structure CellMarkup where
  before : List Token
  span : Token
  text : Token
  after : List Token

/-- The tokens of a cell in document order. -/
def CellMarkup.tokens (c : CellMarkup) : List Token :=
  c.before ++ c.span :: c.text :: c.after

/-- The cell holds one recognized span immediately followed by a text token. -/
def CellMarkup.wellFormed (c : CellMarkup) : Prop :=
  (∀ t ∈ c.before, filler t) ∧ isStartTag c.span "span" ∧ hasRecognizedClass c.span.Attr ∧
    c.text.Kind = TokenType.TextToken ∧ (∀ t ∈ c.after, filler t)

instance (c : CellMarkup) : Decidable c.wellFormed := by
  unfold CellMarkup.wellFormed; infer_instance

/-- The markup of one data row: filler tokens in front of the row, the `tr`
start tag, filler tokens, the cells, and the `tr` end tag. -/
structure RowMarkup where
  before : List Token
  start : Token
  lead : List Token
  cells : List CellMarkup
  close : Token

/-- The tokens of a data row in document order. -/
def RowMarkup.tokens (r : RowMarkup) : List Token :=
  r.before ++ r.start :: (r.lead ++ (r.cells.flatMap CellMarkup.tokens ++ [r.close]))

/-- The texts of a data row: the raw text of each cell, in order. -/
def RowMarkup.values (r : RowMarkup) : List GoString :=
  r.cells.map (fun c => c.text.Raw)

/-- The row is a `tr` start tag, cells, and a `tr` end tag. -/
def RowMarkup.wellFormed (r : RowMarkup) : Prop :=
  (∀ t ∈ r.before, filler t) ∧ isStartTag r.start "tr" ∧ (∀ t ∈ r.lead, filler t) ∧
    (∀ c ∈ r.cells, c.wellFormed) ∧ isEndTag r.close "tr"

instance (r : RowMarkup) : Decidable r.wellFormed := by
  unfold RowMarkup.wellFormed; infer_instance

/-- The records of a list of rows of texts: `makeStat` is applied to each row
in order with the last record produced so far as previous record; a row for
which it yields nothing adds nothing. -/
def mapRows : Option routerStat → List (List GoString) → List routerStat
  | _, [] => []
  | previous, vs :: rest =>
    match makeStat vs previous with
    | some r => r :: mapRows (some r) rest
    | none => mapRows previous rest

/-- The usual markup of a cell with the text `v`:
`<td><span class="ttext">v</span></td>`. -/
def plainCell (v : GoString) : CellMarkup :=
  { before := [{ Kind := TokenType.StartTagToken, Data := "td" }]
    span := { Kind := TokenType.StartTagToken, Data := "span",
              Attr := [{ Key := "class", Val := "ttext" }] }
    text := { Kind := TokenType.TextToken, Data := v, Raw := v }
    after := [{ Kind := TokenType.EndTagToken, Data := "span" },
              { Kind := TokenType.EndTagToken, Data := "td" }] }

/-- The usual markup of a data row with the texts `vs`: `<tr>`, one cell for
each text, `</tr>`. -/
def plainRow (vs : List GoString) : RowMarkup :=
  { before := []
    start := { Kind := TokenType.StartTagToken, Data := "tr" }
    lead := []
    cells := vs.map plainCell
    close := { Kind := TokenType.EndTagToken, Data := "tr" } }

/-- The runes that are the ASCII character `l` ignoring case: a letter in
upper and in lower case, and nothing but itself for any other character; with
`K` and `k` goes U+212A KELVIN SIGN and with `S` and `s` goes U+017F LATIN
SMALL LETTER LONG S, the two runes outside ASCII that Unicode case folding
identifies with an ASCII letter. -/
def caseVariants (l : Char) : List Char :=
  if l = 'K' ∨ l = 'k' then ['K', 'k', Char.ofNat 0x212A]
  else if l = 'S' ∨ l = 's' then ['S', 's', Char.ofNat 0x017F]
  else if 'A' ≤ l ∧ l ≤ 'Z' then [l, Char.ofNat (l.toNat + 32)]
  else if 'a' ≤ l ∧ l ≤ 'z' then [Char.ofNat (l.toNat - 32), l]
  else [l]

/-- The text `s` equals the ASCII text `lit` ignoring case: the two have the
same length and each character of `s` is a case variant of the character of
`lit` at its place. -/
def equalsIgnoringCase : List Char → List Char → Bool
  | [], [] => true
  | l :: ls, c :: cs => (caseVariants l).contains c && equalsIgnoringCase ls cs
  | _, _ => false

/-- The lower-case form of an ASCII character: an upper-case letter `A` .. `Z`
becomes the letter 32 code points above it, any other character stays. -/
def asciiLower (c : Char) : Char :=
  if 'A' ≤ c ∧ c ≤ 'Z' then Char.ofNat (c.toNat + 32) else c

/-- The text is one that `parseNumber` reads as a negative number: the base-10
literal of a negative number, or a minus sign followed by decimal digits whose
value already exceeds 2^64 - 1, whatever stands behind them. -/
def negativeText (v : GoString) : Bool :=
  (match literalValue v with
   | some n => decide (n < 0)
   | none => false) ||
  ((splitSign v).1 && decide (maxUint64 < digitRun 0 (splitSign v).2))

/-- The counter texts of a row: the third to the seventh value of a row of 8
values, the only texts that `makeStat` passes to `parseNumber`; a row of any
other length has none. -/
def counterTexts : List GoString → List GoString
  | [_, _, v2, v3, v4, v5, v6, _] => [v2, v3, v4, v5, v6]
  | _ => []

/-- The row comes after a record whose port starts with "LAN" and its own
first value starts with "LAN": the case in which `makeStat` takes the five
counters from the previous record and not from the row. -/
def lanAfterLan (previousPort : Option GoString) (row : List GoString) : Bool :=
  match previousPort, row with
  | some p, v0 :: _ => HasPrefix p "LAN" && HasPrefix v0 "LAN"
  | _, _ => false

/-- The row cannot bring in a negative counter after a record with the port
`previousPort`: it takes its counters from that record, or none of its
counter texts is read as a negative number. -/
def safeRow (previousPort : Option GoString) (row : List GoString) : Bool :=
  lanAfterLan previousPort row || (counterTexts row).all (fun v => !negativeText v)

/-- Every row of the list is safe after the row before it: an empty row gives
no record and is passed over, and a row with the first value `v0` gives a
record with the port `v0`, which is the previous record of the row after it. -/
def safeRows : Option GoString → List (List GoString) → Bool
  | _, [] => true
  | previousPort, [] :: rest => safeRows previousPort rest
  | previousPort, (v0 :: vs) :: rest =>
    safeRow previousPort (v0 :: vs) && safeRows (some v0) rest

/-- The rows of texts that the loop of source `parseStats` hands to `makeStat`
from the state `st` on the tokens still to come: the loop itself, with the
values in `dataValues` written down at each `tr` end tag. -/
def handedRows : ParseState → List Token → List (List GoString)
  | _, [] => []
  | st, tok :: rest =>
    match tok.Kind with
    | TokenType.StartTagToken =>
      if tok.Data = "table" then
        handedRows { st with rowNumber := 0 } rest
      else if tok.Data = "tr" then
        handedRows { st with rowNumber := st.rowNumber + 1, colNumber := 0, dataValues := [] } rest
      else if tok.Data = "td" then
        handedRows { st with colNumber := st.colNumber + 1 } rest
      else if tok.Data = "span" then
        if st.rowNumber = 1 then handedRows st rest
        else if !spanFound tok.Attr then handedRows st rest
        else
          match rest with
          | [] => []
          | inner :: rest1 =>
            if inner.Kind ≠ TokenType.TextToken then handedRows st rest1
            else handedRows { st with dataValues := st.dataValues ++ [inner.Raw] } rest1
      else handedRows st rest
    | TokenType.EndTagToken =>
      if tok.Data = "tr" then st.dataValues :: handedRows (endRow st) rest
      else handedRows st rest
    | _ => handedRows st rest

/-! ## The fuel of the duration loop -/

theorem leadingInt_length (s : List Char) :
    ∀ (x v : Nat) (r : List Char), leadingInt s x = some (v, r) → r.length ≤ s.length := by
  induction s with
  | nil => intro x v r h; simp [leadingInt] at h; simp [h.2.symm]
  | cons c cs ih =>
    intro x v r h
    rw [leadingInt] at h
    dsimp only at h
    split_ifs at h
    · simp at h; simp [← h.2]
    · have := ih _ _ _ h
      simp only [List.length_cons]; omega

theorem leadingFraction_length (s : List Char) :
    ∀ (x : Nat) (scale : Float) (overflow : Bool),
      (leadingFraction s x scale overflow).2.2.length ≤ s.length := by
  induction s with
  | nil => intro x scale overflow; simp [leadingFraction]
  | cons c cs ih =>
    intro x scale overflow
    rw [leadingFraction]
    dsimp only
    split_ifs
    · simp
    all_goals
      simp only [List.length_cons]
      exact Nat.le_succ_of_le (ih _ _ _)

theorem fractionPart_length (s1 : List Char) :
    (fractionPart s1).2.2.1.length ≤ s1.length ∧
      ((fractionPart s1).2.2.2 = true → (fractionPart s1).2.2.1.length < s1.length) := by
  unfold fractionPart
  split
  · next t =>
    have := leadingFraction_length t 0 1 false
    simp only [List.length_cons]
    exact ⟨by omega, fun _ => by omega⟩
  · exact ⟨le_refl _, fun h => absurd h (by simp)⟩

theorem durationTerm_length (s : List Char) (v : Nat) (s3 : List Char)
    (h : durationTerm s = some (v, s3)) : s3.length < s.length := by
  cases s with
  | nil => simp [durationTerm] at h
  | cons c cs =>
    rw [durationTerm] at h
    dsimp only at h
    split_ifs at h with hc
    split at h
    · exact absurd h (by simp)
    · next v0 s1 hli =>
      have hs1 : s1.length ≤ (c :: cs).length := leadingInt_length _ _ _ _ hli
      have hfr := fractionPart_length s1
      generalize fractionPart s1 = fr at h hfr
      by_cases hpp : (!((c :: cs).length != s1.length) && !fr.2.2.2) = true
      · rw [if_pos hpp] at h; exact absurd h (by simp)
      · rw [if_neg hpp] at h
        have hs2 : fr.2.2.1.length < (c :: cs).length := by
          simp only [Bool.and_eq_true, Bool.not_eq_true', not_and, Bool.not_eq_false] at hpp
          by_cases hpre : ((c :: cs).length != s1.length) = true
          · have : (c :: cs).length ≠ s1.length := by simpa using hpre
            omega
          · have := hfr.2 (hpp (by simpa using hpre))
            omega
        have hdrop : (fr.2.2.1.dropWhile (fun c => !endsUnit c)).length ≤ fr.2.2.1.length :=
          (List.dropWhile_sublist _).length_le
        by_cases hu : List.takeWhile (fun c => !endsUnit c) fr.2.2.1 = []
        · rw [if_pos hu] at h; exact absurd h (by simp)
        · rw [if_neg hu] at h
          cases hum : unitMap (List.takeWhile (fun c => !endsUnit c) fr.2.2.1) with
          | none => rw [hum] at h; exact absurd h (by simp)
          | some unit =>
            rw [hum] at h
            dsimp only at h
            by_cases hv : v0 > 2 ^ 63 / unit
            · rw [if_pos hv] at h; exact absurd h (by simp)
            · rw [if_neg hv] at h
              split_ifs at h
              all_goals
                simp only [Option.some.injEq, Prod.mk.injEq] at h
                rw [← h.2]
                omega

theorem parseDurationLoop_fuel (n : Nat) :
    ∀ (s : List Char) (d fuel1 fuel2 : Nat), s.length ≤ n → s.length < fuel1 →
      s.length < fuel2 → parseDurationLoop fuel1 s d = parseDurationLoop fuel2 s d := by
  induction n with
  | zero =>
    intro s d fuel1 fuel2 hn h1 h2
    have hs : s = [] := List.length_eq_zero.mp (Nat.le_zero.mp hn)
    subst hs
    cases fuel1 with
    | zero => exact absurd h1 (by simp)
    | succ f1 =>
      cases fuel2 with
      | zero => exact absurd h2 (by simp)
      | succ f2 => rfl
  | succ n ih =>
    intro s d fuel1 fuel2 hn h1 h2
    cases fuel1 with
    | zero => exact absurd h1 (by simp)
    | succ f1 =>
      cases fuel2 with
      | zero => exact absurd h2 (by simp)
      | succ f2 =>
        cases s with
        | nil => rfl
        | cons c cs =>
          rw [parseDurationLoop, parseDurationLoop]
          cases hterm : durationTerm (c :: cs) with
          | none => rfl
          | some p =>
            obtain ⟨v, s3⟩ := p
            have hlen := durationTerm_length _ _ _ hterm
            simp only [List.length_cons] at hlen hn h1 h2
            dsimp only
            split_ifs
            · rfl
            · exact ih s3 _ f1 f2 (by omega) (by omega) (by omega)

/-! ## Theorems about makeStat -/

theorem shareLAN_of_noPairing (stat : routerStat) (previous : Option routerStat)
    (h : noPairing stat.Port previous) : shareLAN stat previous = stat := by
  cases previous with
  | none => rfl
  | some p =>
    have hp := h p rfl
    unfold shareLAN
    rcases hp with hp | hp <;> simp [hp]

theorem shareLAN_of_pairing (stat prev : routerStat)
    (hp : HasPrefix prev.Port "LAN" = true) (hs : HasPrefix stat.Port "LAN" = true) :
    shareLAN stat (some prev) = withCounters stat prev := by
  simp [shareLAN, withCounters, hp, hs]

theorem shareLAN_fields (stat : routerStat) (previous : Option routerStat) :
    (shareLAN stat previous).Port = stat.Port ∧ (shareLAN stat previous).Status = stat.Status ∧
      (shareLAN stat previous).Uptime = stat.Uptime := by
  unfold shareLAN
  split
  · split <;> exact ⟨rfl, rfl, rfl⟩
  · exact ⟨rfl, rfl, rfl⟩

theorem fillByShape_Port (v0 : GoString) (vs : List GoString) :
    (fillByShape { Port := v0 } (v0 :: vs)).Port = v0 := by
  unfold fillByShape
  split
  · next h => simp only [List.cons.injEq] at h; simp [h.1]
  · next h => simp only [List.cons.injEq] at h; simp [h.1]
  · rfl

theorem fillByShape_other (stat : routerStat) (input : List GoString)
    (h3 : input.length ≠ 3) (h8 : input.length ≠ 8) : fillByShape stat input = stat := by
  unfold fillByShape
  split
  · simp at h3
  · simp at h8
  · rfl

theorem makeStat_cons (v0 : GoString) (vs : List GoString) (previous : Option routerStat) :
    makeStat (v0 :: vs) previous =
      some (shareLAN (fillByShape { Port := v0 } (v0 :: vs)) previous) := rfl

/-- C1: a row of exactly 8 values, when the LAN-pairing rule does not apply,
gives the record whose port and status are the first two values, whose five
counters are `parseNumber` of the next five values in order and whose uptime
is `parseDuration` of the last value. -/
theorem makeStat_eight_values (v0 v1 v2 v3 v4 v5 v6 v7 : GoString)
    (previous : Option routerStat) (h : noPairing v0 previous) :
    makeStat [v0, v1, v2, v3, v4, v5, v6, v7] previous =
      some { Port := v0
             Status := v1
             TxPackets := parseNumber v2
             RxPackets := parseNumber v3
             Collisions := parseNumber v4
             TxBytesPerSecond := parseNumber v5
             RxBytesPerSecond := parseNumber v6
             Uptime := parseDuration v7 } := by
  simp only [makeStat, fillByShape]
  rw [shareLAN_of_noPairing _ _ h]

/-- Witness of C1: the row WAN, Up, 120, 118, 0, 500, 480, 2h10m with no
previous record gives the record (WAN, Up, 120, 118, 0, 500, 480, 2h10m),
the uptime being 7800 seconds in nanoseconds. -/
theorem makeStat_eight_values_witness :
    makeStat ["WAN", "Up", "120", "118", "0", "500", "480", "2h10m"] none =
      some { Port := "WAN"
             Status := "Up"
             TxPackets := 120
             RxPackets := 118
             Collisions := 0
             TxBytesPerSecond := 500
             RxBytesPerSecond := 480
             Uptime := 7800000000000 } :=
  (makeStat_eight_values "WAN" "Up" "120" "118" "0" "500" "480" "2h10m" none
    (fun _ hp => nomatch hp)).trans (by decide)

/-- C2: a row of exactly 3 values, when the LAN-pairing rule does not apply,
gives the record whose port and status are the first two values, whose uptime
is `parseDuration` of the third value and whose five traffic counters are 0. -/
theorem makeStat_three_values (v0 v1 v2 : GoString) (previous : Option routerStat)
    (h : noPairing v0 previous) :
    makeStat [v0, v1, v2] previous =
      some { Port := v0
             Status := v1
             TxPackets := 0
             RxPackets := 0
             Collisions := 0
             TxBytesPerSecond := 0
             RxBytesPerSecond := 0
             Uptime := parseDuration v2 } := by
  simp only [makeStat, fillByShape]
  rw [shareLAN_of_noPairing _ _ h]

/-- Witness of C2: the row WLAN-2G, Link Down, 5m after the previous record
of port LAN1 gives uptime 5m (300 seconds in nanoseconds) and zero counters. -/
theorem makeStat_three_values_witness :
    makeStat ["WLAN-2G", "Link Down", "5m"] (some { Port := "LAN1", TxPackets := 10 }) =
      some { Port := "WLAN-2G"
             Status := "Link Down"
             TxPackets := 0
             RxPackets := 0
             Collisions := 0
             TxBytesPerSecond := 0
             RxBytesPerSecond := 0
             Uptime := 300000000000 } :=
  (makeStat_three_values "WLAN-2G" "Link Down" "5m" (some { Port := "LAN1", TxPackets := 10 })
    (fun _ _ => Or.inr (by decide))).trans (by decide)

/-- C3: for a non-empty row of any length whose first value starts with "LAN"
and a previous record whose port starts with "LAN", `makeStat` returns the
record the row alone would give (the one returned without a previous record,
whose port is the first value) with its five traffic counters replaced by
those of the previous record; port, status and uptime are the row's. -/
theorem makeStat_lan_pairing (v0 : GoString) (vs : List GoString) (prev : routerStat)
    (hrow : HasPrefix v0 "LAN" = true) (hprev : HasPrefix prev.Port "LAN" = true) :
    ∃ r0 r, makeStat (v0 :: vs) none = some r0 ∧ makeStat (v0 :: vs) (some prev) = some r ∧
      r0.Port = v0 ∧
      r.TxPackets = prev.TxPackets ∧ r.RxPackets = prev.RxPackets ∧
      r.Collisions = prev.Collisions ∧ r.TxBytesPerSecond = prev.TxBytesPerSecond ∧
      r.RxBytesPerSecond = prev.RxBytesPerSecond ∧
      r.Port = r0.Port ∧ r.Status = r0.Status ∧ r.Uptime = r0.Uptime := by
  refine ⟨fillByShape { Port := v0 } (v0 :: vs),
    withCounters (fillByShape { Port := v0 } (v0 :: vs)) prev, ?_, ?_, ?_⟩
  · rw [makeStat_cons]; rfl
  · rw [makeStat_cons, shareLAN_of_pairing _ _ hprev (by rw [fillByShape_Port]; exact hrow)]
  · exact ⟨fillByShape_Port v0 vs, rfl, rfl, rfl, rfl, rfl, rfl, rfl, rfl⟩

/-- Witness of C3: after the record (LAN1, Up, 10, 20, 0, 100, 200, 1h) the
row LAN2, Up, 999, 999, 999, 999, 999, 1h gives the counters 10, 20, 0, 100,
200, with port LAN2, status Up and uptime 1h from the row. -/
theorem makeStat_lan_pairing_witness :
    (∃ r0 r : routerStat,
      makeStat ["LAN2", "Up", "999", "999", "999", "999", "999", "1h"] none = some r0 ∧
      makeStat ["LAN2", "Up", "999", "999", "999", "999", "999", "1h"]
        (some { Port := "LAN1", Status := "Up", TxPackets := 10, RxPackets := 20,
                Collisions := 0, TxBytesPerSecond := 100, RxBytesPerSecond := 200,
                Uptime := 3600000000000 }) = some r ∧
      r0.Port = "LAN2" ∧
      r.TxPackets = 10 ∧ r.RxPackets = 20 ∧ r.Collisions = 0 ∧ r.TxBytesPerSecond = 100 ∧
      r.RxBytesPerSecond = 200 ∧
      r.Port = r0.Port ∧ r.Status = r0.Status ∧ r.Uptime = r0.Uptime) ∧
    makeStat ["LAN2", "Up", "999", "999", "999", "999", "999", "1h"]
        (some { Port := "LAN1", Status := "Up", TxPackets := 10, RxPackets := 20,
                Collisions := 0, TxBytesPerSecond := 100, RxBytesPerSecond := 200,
                Uptime := 3600000000000 }) =
      some { Port := "LAN2", Status := "Up", TxPackets := 10, RxPackets := 20,
             Collisions := 0, TxBytesPerSecond := 100, RxBytesPerSecond := 200,
             Uptime := 3600000000000 } :=
  ⟨makeStat_lan_pairing "LAN2" ["Up", "999", "999", "999", "999", "999", "1h"]
      { Port := "LAN1", Status := "Up", TxPackets := 10, RxPackets := 20,
        Collisions := 0, TxBytesPerSecond := 100, RxBytesPerSecond := 200,
        Uptime := 3600000000000 } (by decide) (by decide),
    by decide⟩

/-- Counterexample to C4 as stated: the row LAN1, Up has 2 values, neither 3
nor 8, and `makeStat` yields a record for it, which `parseStats` appends when
the row comes second in a table. -/
theorem makeStat_two_values_yields_record :
    ([("LAN1" : GoString), "Up"].length ≠ 3 ∧ [("LAN1" : GoString), "Up"].length ≠ 8) ∧
    makeStat ["LAN1", "Up"] none = some { Port := "LAN1" } ∧
    parseStats
      [{ Kind := TokenType.StartTagToken, Data := "table" },
       { Kind := TokenType.StartTagToken, Data := "tr" },
       { Kind := TokenType.EndTagToken, Data := "tr" },
       { Kind := TokenType.StartTagToken, Data := "tr" },
       { Kind := TokenType.StartTagToken, Data := "td" },
       { Kind := TokenType.StartTagToken, Data := "span",
         Attr := [{ Key := "class", Val := "ttext" }] },
       { Kind := TokenType.TextToken, Data := "LAN1", Raw := "LAN1" },
       { Kind := TokenType.EndTagToken, Data := "span" },
       { Kind := TokenType.EndTagToken, Data := "td" },
       { Kind := TokenType.StartTagToken, Data := "td" },
       { Kind := TokenType.StartTagToken, Data := "span",
         Attr := [{ Key := "class", Val := "ttext" }] },
       { Kind := TokenType.TextToken, Data := "Up", Raw := "Up" },
       { Kind := TokenType.EndTagToken, Data := "span" },
       { Kind := TokenType.EndTagToken, Data := "td" },
       { Kind := TokenType.EndTagToken, Data := "tr" },
       { Kind := TokenType.EndTagToken, Data := "table" }] =
      ([{ Port := "LAN1" }], none) := by
  decide

/-- C4, amended: for a row whose number of values is neither 3 nor 8,
`makeStat` yields no record exactly when the row has no values, and the `tr`
end tag of `parseStats` leaves the output as it is exactly then; a record that
`makeStat` yields for such a row has the row's first value as port, the empty
status and the zero uptime. -/
theorem makeStat_other_shape_none_iff (input : List GoString) (previous : Option routerStat)
    (h3 : input.length ≠ 3) (h8 : input.length ≠ 8) :
    (makeStat input previous = none ↔ input = []) ∧
    (∀ st : ParseState, st.dataValues = input → st.previousStat = previous →
      ((endRow st).stats = st.stats ↔ input = [])) ∧
    (∀ r, makeStat input previous = some r →
      input.head? = some r.Port ∧ r.Status = "" ∧ r.Uptime = 0) := by
  cases input with
  | nil =>
    refine ⟨by simp [makeStat], ?_, by simp [makeStat]⟩
    intro st hd _
    simp [endRow, hd, makeStat]
  | cons v0 vs =>
    refine ⟨by simp [makeStat_cons], ?_, ?_⟩
    · intro st hd hp
      simp [endRow, hd, hp, makeStat_cons]
    · intro r hr
      rw [makeStat_cons, fillByShape_other _ _ h3 h8] at hr
      have hr1 : r = shareLAN { Port := v0 } previous := (Option.some.inj hr).symm
      have hf := shareLAN_fields { Port := v0 } previous
      rw [hr1]
      exact ⟨by rw [hf.1]; rfl, hf.2.1, hf.2.2⟩

/-- Witness of the amended C4: the row LAN1, Up yields a record and the empty
row yields none. -/
theorem makeStat_other_shape_none_iff_witness :
    ¬ makeStat ["LAN1", "Up"] none = none ∧ makeStat [] none = none :=
  ⟨fun h => absurd
      ((makeStat_other_shape_none_iff ["LAN1", "Up"] none (by decide) (by decide)).1.mp h)
      (by decide),
    (makeStat_other_shape_none_iff [] none (by decide) (by decide)).1.mpr rfl⟩

/-- C5: `makeStat` yields no record if and only if its row is empty, whatever
the previous record: the empty row gives `nil`, a non-empty row of any length
gives a record. -/
theorem makeStat_none_iff_empty (input : List GoString) (previous : Option routerStat) :
    (makeStat input previous = none ↔ input = []) ∧
    (input ≠ [] → ∃ r, makeStat input previous = some r) := by
  cases input with
  | nil => simp [makeStat]
  | cons v0 vs => simp [makeStat_cons]

/-- Witness of C5: the one-value row LAN1 yields a record. -/
theorem makeStat_none_iff_empty_witness :
    ∃ r, makeStat ["LAN1"] (some { Port := "LAN0" }) = some r :=
  (makeStat_none_iff_empty ["LAN1"] (some { Port := "LAN0" })).2 (by decide)

/-- C6: a non-empty row whose length is neither 3 nor 8, when the LAN-pairing
rule does not apply, gives the record whose port is the first value and whose
other fields are zero: empty status, the five counters 0, uptime 0. -/
theorem makeStat_port_only (v0 : GoString) (vs : List GoString)
    (previous : Option routerStat) (h3 : (v0 :: vs).length ≠ 3) (h8 : (v0 :: vs).length ≠ 8)
    (h : noPairing v0 previous) :
    makeStat (v0 :: vs) previous =
      some { Port := v0
             Status := ""
             TxPackets := 0
             RxPackets := 0
             Collisions := 0
             TxBytesPerSecond := 0
             RxBytesPerSecond := 0
             Uptime := 0 } := by
  rw [makeStat_cons, fillByShape_other _ _ h3 h8, shareLAN_of_noPairing _ _ h]

/-- Witness of C6: the row WAN, Up, 120, 118 of 4 values gives the record of
port WAN with every other field zero. -/
theorem makeStat_port_only_witness :
    makeStat ["WAN", "Up", "120", "118"] none =
      some { Port := "WAN"
             Status := ""
             TxPackets := 0
             RxPackets := 0
             Collisions := 0
             TxBytesPerSecond := 0
             RxBytesPerSecond := 0
             Uptime := 0 } :=
  makeStat_port_only "WAN" ["Up", "120", "118"] none (by decide) (by decide)
    (fun _ hp => nomatch hp)

/-! ## Theorems about the renderers -/

theorem fmtD_zero : fmtD 0 = "0" := by decide

theorem char_lt_iff (a b : Char) : a < b ↔ a.toNat < b.toNat := Iff.rfl

theorem char_ne_of_toNat (a b : Char) (h : a.toNat ≠ b.toNat) : a ≠ b :=
  fun hab => h (by rw [hab])

theorem equalFoldRune_ascii :
    ∀ n : Fin 128, ∀ l ∈ "Link Down".data,
      (equalFoldRune (Char.ofNat n) l = true ↔ (caseVariants l).contains (Char.ofNat n) = true) := by
  decide!

theorem equalFoldRune_two_cycle (l : Char) (h1 : l.toNat < 128)
    (h2 : (SimpleFold l).toNat < 128) (h3 : SimpleFold (SimpleFold l) = l)
    (c : Char) (hc : 128 ≤ c.toNat) : equalFoldRune c l = false := by
  have hne : l ≠ c := char_ne_of_toNat _ _ (by omega)
  have hlt : l < c := (char_lt_iff _ _).mpr (by omega)
  have hlt2 : SimpleFold l < c := (char_lt_iff _ _).mpr (by omega)
  have hne2 : SimpleFold l ≠ c := char_ne_of_toNat _ _ (by omega)
  unfold equalFoldRune
  rw [if_neg hne]
  simp only [if_pos hlt]
  rw [if_neg (by omega)]
  by_cases hfix : SimpleFold l = l
  · have : foldUpTo 4 l c (SimpleFold l) = SimpleFold l := by
      rw [foldUpTo, if_neg (fun h => h.1 hfix)]
    rw [this]
    simp [hne2]
  · have : foldUpTo 4 l c (SimpleFold l) = l := by
      rw [foldUpTo, if_pos ⟨hfix, hlt2⟩, h3, foldUpTo, if_neg (fun h => h.1 rfl)]
    rw [this]
    simp [hne]

theorem equalFoldRune_k (c : Char) (hc : 128 ≤ c.toNat) :
    equalFoldRune c 'k' = true ↔ c = Char.ofNat 0x212A := by
  have hne : ('k' : Char) ≠ c := char_ne_of_toNat _ _ (by
    have : ('k' : Char).toNat = 107 := rfl
    omega)
  have hlt : ('k' : Char) < c := (char_lt_iff _ _).mpr (by
    have : ('k' : Char).toNat = 107 := rfl
    omega)
  have hK : ('K' : Char) < c := (char_lt_iff _ _).mpr (by
    have : ('K' : Char).toNat = 75 := rfl
    omega)
  have hf1 : SimpleFold 'k' = Char.ofNat 0x212A := by decide
  have hf2 : SimpleFold (Char.ofNat 0x212A) = 'K' := by decide
  have hf3 : SimpleFold 'K' = 'k' := by decide
  have hkel : Char.ofNat 0x212A ≠ 'k' := by decide
  have hKk : ('K' : Char) ≠ 'k' := by decide
  unfold equalFoldRune
  rw [if_neg hne]
  simp only [if_pos hlt]
  rw [if_neg (by omega), hf1]
  by_cases hlt3 : Char.ofNat 0x212A < c
  · have : foldUpTo 4 'k' c (Char.ofNat 0x212A) = 'k' := by
      rw [foldUpTo, if_pos ⟨hkel, hlt3⟩, hf2, foldUpTo, if_pos ⟨hKk, hK⟩, hf3, foldUpTo,
        if_neg (fun h => h.1 rfl)]
    rw [this]
    have hne3 : c ≠ Char.ofNat 0x212A := fun h => by rw [h] at hlt3; exact absurd hlt3 (by decide)
    simp [hne, hne3]
  · have : foldUpTo 4 'k' c (Char.ofNat 0x212A) = Char.ofNat 0x212A := by
      rw [foldUpTo, if_neg (fun h => hlt3 h.2)]
    rw [this]
    simp only [decide_eq_true_eq]
    exact eq_comm

theorem caseVariants_ascii (vs : List Char) (hvs : ∀ v ∈ vs, v.toNat < 128)
    (c : Char) (hc : 128 ≤ c.toNat) : vs.contains c = false := by
  cases h : vs.contains c with
  | false => rfl
  | true =>
    have hmem : c ∈ vs := by simpa using h
    have := hvs c hmem
    omega

theorem equalFoldRune_iff (l : Char) (hl : l ∈ "Link Down".data) (c : Char) :
    equalFoldRune c l = true ↔ (caseVariants l).contains c = true := by
  by_cases hc : c.toNat < 128
  · have := equalFoldRune_ascii ⟨c.toNat, hc⟩ l hl
    simpa using this
  · have hc' : 128 ≤ c.toNat := Nat.le_of_not_lt hc
    by_cases hk : l = 'k'
    · subst hk
      rw [equalFoldRune_k c hc']
      have hv : caseVariants 'k' = ['K', 'k', Char.ofNat 0x212A] := by decide
      rw [hv]
      have h1 : c ≠ 'K' := char_ne_of_toNat _ _ (by
        have : ('K' : Char).toNat = 75 := rfl
        omega)
      have h2 : c ≠ 'k' := char_ne_of_toNat _ _ (by
        have : ('k' : Char).toNat = 107 := rfl
        omega)
      simp [h1, h2]
    · have hall : ∀ x ∈ "Link Down".data, x ≠ 'k' →
          x.toNat < 128 ∧ (SimpleFold x).toNat < 128 ∧ SimpleFold (SimpleFold x) = x ∧
            ∀ v ∈ caseVariants x, v.toNat < 128 := by decide
      obtain ⟨h1, h2, h3, h4⟩ := hall l hl hk
      rw [equalFoldRune_two_cycle l h1 h2 h3 c hc', caseVariants_ascii _ h4 c hc']

theorem equalFoldRunes_iff (lit : List Char) (hlit : ∀ l ∈ lit, l ∈ "Link Down".data) :
    ∀ s : List Char, equalFoldRunes s lit = true ↔ equalsIgnoringCase lit s = true := by
  induction lit with
  | nil =>
    intro s
    cases s with
    | nil => simp [equalFoldRunes, equalsIgnoringCase]
    | cons c cs => simp [equalFoldRunes, equalsIgnoringCase]
  | cons l ls ih =>
    intro s
    cases s with
    | nil => simp [equalFoldRunes, equalsIgnoringCase]
    | cons c cs =>
      rw [equalFoldRunes, equalsIgnoringCase, Bool.and_eq_true, Bool.and_eq_true,
        equalFoldRune_iff l (hlit l (List.mem_cons_self _ _)) c,
        ih (fun x hx => hlit x (List.mem_cons_of_mem _ hx)) cs]

theorem IsDown_iff (s : routerStat) :
    s.IsDown = true ↔ equalsIgnoringCase "Link Down".data s.Status.data = true := by
  unfold routerStat.IsDown EqualFold
  exact equalFoldRunes_iff _ (fun _ h => h) _

theorem caseVariants_ascii_lower :
    ∀ n : Fin 128, ∀ l ∈ "Link Down".data,
      ((caseVariants l).contains (Char.ofNat n) = true ↔
        asciiLower (Char.ofNat n) = asciiLower l) := by
  decide!

theorem equalsIgnoringCase_ascii (lit : List Char) (hlit : ∀ l ∈ lit, l ∈ "Link Down".data) :
    ∀ s : List Char, (∀ c ∈ s, c.toNat < 128) →
      (equalsIgnoringCase lit s = true ↔ s.map asciiLower = lit.map asciiLower) := by
  induction lit with
  | nil =>
    intro s _
    cases s with
    | nil => simp [equalsIgnoringCase]
    | cons c cs => simp [equalsIgnoringCase]
  | cons l ls ih =>
    intro s hs
    cases s with
    | nil => simp [equalsIgnoringCase]
    | cons c cs =>
      have hc := caseVariants_ascii_lower ⟨c.toNat, hs c (List.mem_cons_self _ _)⟩ l
        (hlit l (List.mem_cons_self _ _))
      simp only [Char.ofNat_toNat] at hc
      rw [equalsIgnoringCase, Bool.and_eq_true, hc,
        ih (fun x hx => hlit x (List.mem_cons_of_mem _ hx)) cs
          (fun x hx => hs x (List.mem_cons_of_mem _ hx)),
        List.map_cons, List.map_cons, List.cons.injEq]

/-- C7: `IsDown` is true exactly when the status equals "Link Down" ignoring
case, that is, when it has the nine characters of "Link Down" up to the case
of each letter (the Kelvin sign counting as a `k`, as Unicode case folding has
it); for a status of ASCII characters this is to say that the status in lower
case is "link down".  And for a record that is down, `String` and `LineFormat`
return what they return for the same record with its five counters set to 0,
namely the text with `0` printed at each of the five counter positions. -/
theorem down_renders_zero_counters (s : routerStat) :
    (s.IsDown = true ↔ equalsIgnoringCase "Link Down".data s.Status.data = true) ∧
    ((∀ c ∈ s.Status.data, c.toNat < 128) →
      (s.IsDown = true ↔ s.Status.data.map asciiLower = "link down".data)) ∧
    (s.IsDown = true →
      s.String = (zeroCounters s).String ∧
      s.String =
        "Port: " ++ s.Port ++ "; Status: " ++ s.Status ++
          "; TxPkts: 0; RxPkts: 0; Collisions: 0; TxB/s: 0; RxB/s: 0; Uptime: " ++
          DurationString s.Uptime ∧
      ∀ (isPrintTable : Char → Bool) (address : GoString),
        s.LineFormat isPrintTable address = (zeroCounters s).LineFormat isPrintTable address ∧
        s.LineFormat isPrintTable address =
          "router,address=" ++ address ++ ",name=" ++ s.Name ++ ",classification=" ++
            s.Classifiction ++ ",availability=" ++ s.Availability ++
            " tx_packets=0i,rx_packets=0i,collisions=0i,tx_bytes_sec=0i,rx_bytes_sec=0i,status=" ++
            Quote isPrintTable s.Status ++ ",down=true") := by
  refine ⟨IsDown_iff s, fun hascii => ?_, fun h => ?_⟩
  · rw [IsDown_iff]
    exact equalsIgnoringCase_ascii _ (fun _ h => h) _ hascii
  have hz : (zeroCounters s).IsDown = true := h
  refine ⟨?_, ?_, fun tbl address => ⟨?_, ?_⟩⟩
  · simp only [routerStat.String, h, hz, if_true]; rfl
  · simp only [routerStat.String, h, if_true, sprintfHuman, fmtD_zero, String.append_assoc]
    rfl
  · simp only [routerStat.LineFormat, h, hz, if_true]; rfl
  · simp only [routerStat.LineFormat, h, if_true, sprintfLine, fmtD_zero, fmtBool,
      String.append_assoc]
    rfl

set_option maxRecDepth 100000 in
/-- Witness of C7: the record (WLAN-2G, LINK down, 7, 8, 9, 10, 11, 5m) is
down and is printed with 0 at every counter position; a record with the status
Up, Link Up, Link Dow, Link Down followed by a blank, or Link-Down is not
down. -/
theorem down_renders_zero_counters_witness :
    (({ Port := "WLAN-2G", Status := "LINK down", TxPackets := 7, RxPackets := 8,
        Collisions := 9, TxBytesPerSecond := 10, RxBytesPerSecond := 11,
        Uptime := 300000000000 } : routerStat).String =
      "Port: WLAN-2G; Status: LINK down; TxPkts: 0; RxPkts: 0; Collisions: 0; TxB/s: 0; RxB/s: 0; Uptime: 5m0s") ∧
    (({ Port := "WLAN-2G", Status := "LINK down", TxPackets := 7, RxPackets := 8,
        Collisions := 9, TxBytesPerSecond := 10, RxBytesPerSecond := 11,
        Uptime := 300000000000 } : routerStat).LineFormat (fun _ => true) "10.0.0.1" =
      "router,address=10.0.0.1,name=WLAN-2G,classification=Wireless,availability=Internal tx_packets=0i,rx_packets=0i,collisions=0i,tx_bytes_sec=0i,rx_bytes_sec=0i,status=\"LINK down\",down=true") ∧
    ({ Status := "lInK dOwN" } : routerStat).IsDown = true ∧
    ¬ ({ Status := "Up" } : routerStat).IsDown = true ∧
    ¬ ({ Status := "Link Up" } : routerStat).IsDown = true ∧
    ¬ ({ Status := "Link Dow" } : routerStat).IsDown = true ∧
    ¬ ({ Status := "Link Down " } : routerStat).IsDown = true ∧
    ¬ ({ Status := "Link-Down" } : routerStat).IsDown = true :=
  ⟨((down_renders_zero_counters
      { Port := "WLAN-2G", Status := "LINK down", TxPackets := 7, RxPackets := 8,
        Collisions := 9, TxBytesPerSecond := 10, RxBytesPerSecond := 11,
        Uptime := 300000000000 }).2.2 (by decide)).2.1.trans (by decide),
   (((down_renders_zero_counters
      { Port := "WLAN-2G", Status := "LINK down", TxPackets := 7, RxPackets := 8,
        Collisions := 9, TxBytesPerSecond := 10, RxBytesPerSecond := 11,
        Uptime := 300000000000 }).2.2 (by decide)).2.2 (fun _ => true) "10.0.0.1").2.trans
      (by decide),
   ((down_renders_zero_counters { Status := "lInK dOwN" }).2.1 (by decide)).mpr (by decide),
   fun h => absurd ((down_renders_zero_counters { Status := "Up" }).1.mp h) (by decide),
   fun h => absurd (((down_renders_zero_counters { Status := "Link Up" }).2.1
     (by decide)).mp h) (by decide),
   fun h => absurd ((down_renders_zero_counters { Status := "Link Dow" }).1.mp h) (by decide),
   fun h => absurd ((down_renders_zero_counters { Status := "Link Down " }).1.mp h) (by decide),
   fun h => absurd (((down_renders_zero_counters { Status := "Link-Down" }).2.1
     (by decide)).mp h) (by decide)⟩

/-! ## Theorems about parseStats -/

theorem parseLoop_cons (st : ParseState) (tok : Token) (rest : List Token) :
    parseLoop st (tok :: rest) =
    match tok.Kind with
    | TokenType.StartTagToken =>
      if tok.Data = "table" then
        parseLoop { st with rowNumber := 0 } rest
      else if tok.Data = "tr" then
        parseLoop { st with rowNumber := st.rowNumber + 1, colNumber := 0, dataValues := [] } rest
      else if tok.Data = "td" then
        parseLoop { st with colNumber := st.colNumber + 1 } rest
      else if tok.Data = "span" then
        if st.rowNumber = 1 then parseLoop st rest
        else if !spanFound tok.Attr then parseLoop st rest
        else
          match rest with
          | [] => (st.stats, none)
          | inner :: rest1 =>
            if inner.Kind ≠ TokenType.TextToken then parseLoop st rest1
            else parseLoop { st with dataValues := st.dataValues ++ [inner.Raw] } rest1
      else parseLoop st rest
    | TokenType.EndTagToken =>
      if tok.Data = "tr" then parseLoop (endRow st) rest
      else parseLoop st rest
    | _ => parseLoop st rest := by
  cases rest with
  | nil => rw [parseLoop.eq_2]
  | cons inner rest1 => rw [parseLoop.eq_3]

theorem parseLoop_nil (st : ParseState) : parseLoop st [] = (st.stats, none) := rfl

theorem parseLoop_table (st : ParseState) (tok : Token) (rest : List Token)
    (h : isStartTag tok "table") :
    parseLoop st (tok :: rest) = parseLoop { st with rowNumber := 0 } rest := by
  rw [parseLoop_cons]; simp [h.1, h.2]

theorem parseLoop_tr (st : ParseState) (tok : Token) (rest : List Token)
    (h : isStartTag tok "tr") :
    parseLoop st (tok :: rest) =
      parseLoop { st with rowNumber := st.rowNumber + 1, colNumber := 0, dataValues := [] }
        rest := by
  rw [parseLoop_cons]; simp [h.1, h.2]

theorem parseLoop_td (st : ParseState) (tok : Token) (rest : List Token)
    (h : isStartTag tok "td") :
    parseLoop st (tok :: rest) = parseLoop { st with colNumber := st.colNumber + 1 } rest := by
  rw [parseLoop_cons]; simp [h.1, h.2]

theorem parseLoop_span_header (st : ParseState) (tok : Token) (rest : List Token)
    (h : isStartTag tok "span") (hrow : st.rowNumber = 1) :
    parseLoop st (tok :: rest) = parseLoop st rest := by
  rw [parseLoop_cons]; simp [h.1, h.2, hrow]

theorem parseLoop_span_plain (st : ParseState) (tok : Token) (rest : List Token)
    (h : isStartTag tok "span") (hfound : spanFound tok.Attr = false) :
    parseLoop st (tok :: rest) = parseLoop st rest := by
  rw [parseLoop_cons]; simp [h.1, h.2, hfound]

theorem parseLoop_span_last (st : ParseState) (tok : Token)
    (h : isStartTag tok "span") :
    parseLoop st [tok] = (st.stats, none) := by
  rw [parseLoop_cons]; simp only [h.1, h.2]
  simp only [parseLoop_nil]
  split_ifs <;> rfl

theorem parseLoop_span_text (st : ParseState) (tok inner : Token) (rest : List Token)
    (h : isStartTag tok "span") (hrow : st.rowNumber ≠ 1) (hfound : spanFound tok.Attr = true)
    (hinner : inner.Kind = TokenType.TextToken) :
    parseLoop st (tok :: inner :: rest) =
      parseLoop { st with dataValues := st.dataValues ++ [inner.Raw] } rest := by
  rw [parseLoop_cons]; simp [h.1, h.2, hrow, hfound, hinner]

theorem parseLoop_span_skip (st : ParseState) (tok inner : Token) (rest : List Token)
    (h : isStartTag tok "span") (hrow : st.rowNumber ≠ 1) (hfound : spanFound tok.Attr = true)
    (hinner : inner.Kind ≠ TokenType.TextToken) :
    parseLoop st (tok :: inner :: rest) = parseLoop st rest := by
  rw [parseLoop_cons]; simp [h.1, h.2, hrow, hfound, hinner]

theorem parseLoop_start_other (st : ParseState) (tok : Token) (rest : List Token)
    (hk : tok.Kind = TokenType.StartTagToken) (h1 : tok.Data ≠ "table") (h2 : tok.Data ≠ "tr")
    (h3 : tok.Data ≠ "td") (h4 : tok.Data ≠ "span") :
    parseLoop st (tok :: rest) = parseLoop st rest := by
  rw [parseLoop_cons]; simp [hk, h1, h2, h3, h4]

theorem parseLoop_tr_end (st : ParseState) (tok : Token) (rest : List Token)
    (h : isEndTag tok "tr") :
    parseLoop st (tok :: rest) = parseLoop (endRow st) rest := by
  rw [parseLoop_cons]; simp [h.1, h.2]

theorem parseLoop_end_other (st : ParseState) (tok : Token) (rest : List Token)
    (hk : tok.Kind = TokenType.EndTagToken) (h : tok.Data ≠ "tr") :
    parseLoop st (tok :: rest) = parseLoop st rest := by
  rw [parseLoop_cons]; simp [hk, h]

theorem parseLoop_no_tag (st : ParseState) (tok : Token) (rest : List Token)
    (h1 : tok.Kind ≠ TokenType.StartTagToken) (h2 : tok.Kind ≠ TokenType.EndTagToken) :
    parseLoop st (tok :: rest) = parseLoop st rest := by
  rw [parseLoop_cons]
  split
  · next h => exact absurd h h1
  · next h => exact absurd h h2
  · rfl

theorem endRow_stats (st : ParseState) : ∃ more, (endRow st).stats = st.stats ++ more := by
  unfold endRow
  split
  · next stat _ => exact ⟨[stat], rfl⟩
  · exact ⟨[], (List.append_nil _).symm⟩

theorem parseLoop_accumulates (st : ParseState) (tokens : List Token) :
    ∃ more, parseLoop st tokens = (st.stats ++ more, none) := by
  induction st, tokens using parseLoop.induct with
  | case1 st => exact ⟨[], by rw [List.append_nil]; rfl⟩
  | case2 st tok rest hk hd ih => rw [parseLoop_table st tok rest ⟨hk, hd⟩]; exact ih
  | case3 st tok rest hk _ hd ih => rw [parseLoop_tr st tok rest ⟨hk, hd⟩]; exact ih
  | case4 st tok rest hk _ _ hd ih => rw [parseLoop_td st tok rest ⟨hk, hd⟩]; exact ih
  | case5 st tok rest hk _ _ _ hd hrow ih =>
    rw [parseLoop_span_header st tok rest ⟨hk, hd⟩ hrow]; exact ih
  | case6 st tok rest hk _ _ _ hd _ hf ih =>
    rw [parseLoop_span_plain st tok rest ⟨hk, hd⟩ (by simpa using hf)]; exact ih
  | case7 st tok hk _ _ _ hd _ _ =>
    rw [parseLoop_span_last st tok ⟨hk, hd⟩]; exact ⟨[], by rw [List.append_nil]⟩
  | case8 st tok hk _ _ _ hd hrow hf inner rest1 hin ih =>
    rw [parseLoop_span_skip st tok inner rest1 ⟨hk, hd⟩ hrow (by simpa using hf) hin]; exact ih
  | case9 st tok hk _ _ _ hd hrow hf inner rest1 hin ih =>
    rw [parseLoop_span_text st tok inner rest1 ⟨hk, hd⟩ hrow (by simpa using hf)
      (by simpa using hin)]; exact ih
  | case10 st tok rest hk h1 h2 h3 h4 ih =>
    rw [parseLoop_start_other st tok rest hk h1 h2 h3 h4]; exact ih
  | case11 st tok rest hk hd ih =>
    rw [parseLoop_tr_end st tok rest ⟨hk, hd⟩]
    obtain ⟨more, hmore⟩ := ih
    obtain ⟨row, hrow⟩ := endRow_stats st
    exact ⟨row ++ more, by rw [hmore, hrow, List.append_assoc]⟩
  | case12 st tok rest hk hd ih => rw [parseLoop_end_other st tok rest hk hd]; exact ih
  | case13 st tok rest h1 h2 ih => rw [parseLoop_no_tag st tok rest h1 h2]; exact ih

/-- C8: on every finite token stream `parseStats` returns (the embedding is a
total function), and what it returns is a sequence of records together with
the `nil` error; no input gives an error.  The same holds from every state of
the loop, whose result is the records accumulated so far followed by those of
the tokens still to come. -/
theorem parseStats_returns_nil_error (tokens : List Token) :
    (∃ stats : List routerStat, parseStats tokens = (stats, none)) ∧
    ∀ st : ParseState, ∃ more, parseLoop st tokens = (st.stats ++ more, none) :=
  ⟨(parseLoop_accumulates {} tokens).imp (fun _ h => h), fun st => parseLoop_accumulates st tokens⟩

theorem parseLoop_without_row_end (st : ParseState) (tokens : List Token)
    (h : ∀ t ∈ tokens, ¬ isEndTag t "tr") : parseLoop st tokens = (st.stats, none) := by
  induction st, tokens using parseLoop.induct with
  | case1 st => rfl
  | case2 st tok rest hk hd ih =>
    rw [parseLoop_table st tok rest ⟨hk, hd⟩]
    exact ih (fun t ht => h t (List.mem_cons_of_mem _ ht))
  | case3 st tok rest hk _ hd ih =>
    rw [parseLoop_tr st tok rest ⟨hk, hd⟩]
    exact ih (fun t ht => h t (List.mem_cons_of_mem _ ht))
  | case4 st tok rest hk _ _ hd ih =>
    rw [parseLoop_td st tok rest ⟨hk, hd⟩]
    exact ih (fun t ht => h t (List.mem_cons_of_mem _ ht))
  | case5 st tok rest hk _ _ _ hd hrow ih =>
    rw [parseLoop_span_header st tok rest ⟨hk, hd⟩ hrow]
    exact ih (fun t ht => h t (List.mem_cons_of_mem _ ht))
  | case6 st tok rest hk _ _ _ hd _ hf ih =>
    rw [parseLoop_span_plain st tok rest ⟨hk, hd⟩ (by simpa using hf)]
    exact ih (fun t ht => h t (List.mem_cons_of_mem _ ht))
  | case7 st tok hk _ _ _ hd _ _ => rw [parseLoop_span_last st tok ⟨hk, hd⟩]
  | case8 st tok hk _ _ _ hd hrow hf inner rest1 hin ih =>
    rw [parseLoop_span_skip st tok inner rest1 ⟨hk, hd⟩ hrow (by simpa using hf) hin]
    exact ih (fun t ht => h t (List.mem_cons_of_mem _ (List.mem_cons_of_mem _ ht)))
  | case9 st tok hk _ _ _ hd hrow hf inner rest1 hin ih =>
    rw [parseLoop_span_text st tok inner rest1 ⟨hk, hd⟩ hrow (by simpa using hf)
      (by simpa using hin)]
    exact ih (fun t ht => h t (List.mem_cons_of_mem _ (List.mem_cons_of_mem _ ht)))
  | case10 st tok rest hk h1 h2 h3 h4 ih =>
    rw [parseLoop_start_other st tok rest hk h1 h2 h3 h4]
    exact ih (fun t ht => h t (List.mem_cons_of_mem _ ht))
  | case11 st tok rest hk hd ih =>
    exact absurd ⟨hk, hd⟩ (h tok (List.mem_cons_self _ _))
  | case12 st tok rest hk hd ih =>
    rw [parseLoop_end_other st tok rest hk hd]
    exact ih (fun t ht => h t (List.mem_cons_of_mem _ ht))
  | case13 st tok rest h1 h2 ih =>
    rw [parseLoop_no_tag st tok rest h1 h2]
    exact ih (fun t ht => h t (List.mem_cons_of_mem _ ht))

/-- Counterexample to C9 as stated: the stream of the markup
`<tr></tr><tr><td><span class="ttext">LAN1</span></td></tr>` has no `table`
start tag, and `parseStats` returns one record for it. -/
theorem parseStats_without_table_yields_record :
    (∀ t ∈ [({ Kind := TokenType.StartTagToken, Data := "tr" } : Token),
            { Kind := TokenType.EndTagToken, Data := "tr" },
            { Kind := TokenType.StartTagToken, Data := "tr" },
            { Kind := TokenType.StartTagToken, Data := "td" },
            { Kind := TokenType.StartTagToken, Data := "span",
              Attr := [{ Key := "class", Val := "ttext" }] },
            { Kind := TokenType.TextToken, Data := "LAN1", Raw := "LAN1" },
            { Kind := TokenType.EndTagToken, Data := "span" },
            { Kind := TokenType.EndTagToken, Data := "td" },
            { Kind := TokenType.EndTagToken, Data := "tr" }], ¬ isStartTag t "table") ∧
    parseStats
      [{ Kind := TokenType.StartTagToken, Data := "tr" },
       { Kind := TokenType.EndTagToken, Data := "tr" },
       { Kind := TokenType.StartTagToken, Data := "tr" },
       { Kind := TokenType.StartTagToken, Data := "td" },
       { Kind := TokenType.StartTagToken, Data := "span",
         Attr := [{ Key := "class", Val := "ttext" }] },
       { Kind := TokenType.TextToken, Data := "LAN1", Raw := "LAN1" },
       { Kind := TokenType.EndTagToken, Data := "span" },
       { Kind := TokenType.EndTagToken, Data := "td" },
       { Kind := TokenType.EndTagToken, Data := "tr" }] =
      ([{ Port := "LAN1" }], none) := by
  decide

/-- C9, amended: for every markup whose token stream has no `tr` end tag (the
empty markup included), `parseStats` returns the empty sequence of records and
no error. -/
theorem parseStats_without_row_end (tokens : List Token)
    (h : ∀ t ∈ tokens, ¬ isEndTag t "tr") : parseStats tokens = ([], none) :=
  parseLoop_without_row_end {} tokens h

/-- Witness of the amended C9: the empty markup, and a table cut off inside
its second row, give no record. -/
theorem parseStats_without_row_end_witness :
    parseStats [] = ([], none) ∧
    parseStats
      [{ Kind := TokenType.StartTagToken, Data := "table" },
       { Kind := TokenType.StartTagToken, Data := "tr" },
       { Kind := TokenType.StartTagToken, Data := "tr" },
       { Kind := TokenType.StartTagToken, Data := "span",
         Attr := [{ Key := "class", Val := "ttext" }] },
       { Kind := TokenType.TextToken, Data := "LAN1", Raw := "LAN1" }] = ([], none) :=
  ⟨parseStats_without_row_end [] (by decide),
   parseStats_without_row_end _ (by decide)⟩

theorem parseLoop_inert (toks : List Token) (hin : ∀ t ∈ toks, insideRow t) :
    ∀ (st : ParseState) (rest : List Token),
      (st.rowNumber = 1 ∨ ∀ t ∈ toks, ¬ isStartTag t "span") →
      ∃ col, parseLoop st (toks ++ rest) = parseLoop { st with colNumber := col } rest := by
  induction toks with
  | nil => intro st rest _; exact ⟨st.colNumber, rfl⟩
  | cons tok toks ih =>
    intro st rest hspan
    have htok : insideRow tok := hin tok (List.mem_cons_self _ _)
    have ih1 := ih (fun t ht => hin t (List.mem_cons_of_mem _ ht))
    have hspan1 : ∀ r : ParseState, r.rowNumber = st.rowNumber →
        (r.rowNumber = 1 ∨ ∀ t ∈ toks, ¬ isStartTag t "span") := fun r hr =>
      hspan.elim (fun h => Or.inl (hr.trans h))
        (fun h => Or.inr (fun t ht => h t (List.mem_cons_of_mem _ ht)))
    rw [List.cons_append]
    by_cases hk : tok.Kind = TokenType.StartTagToken
    · by_cases htd : tok.Data = "td"
      · rw [parseLoop_td st tok _ ⟨hk, htd⟩]
        exact ih1 { st with colNumber := st.colNumber + 1 } rest (hspan1 _ rfl)
      · by_cases hsp : tok.Data = "span"
        · rcases hspan with hrow | hno
          · rw [parseLoop_span_header st tok _ ⟨hk, hsp⟩ hrow]
            exact ih1 st rest (hspan1 _ rfl)
          · exact absurd ⟨hk, hsp⟩ (hno tok (List.mem_cons_self _ _))
        · rw [parseLoop_start_other st tok _ hk (fun h => htok.1 ⟨hk, h⟩)
            (fun h => htok.2.1 ⟨hk, h⟩) htd hsp]
          exact ih1 st rest (hspan1 _ rfl)
    · by_cases hk2 : tok.Kind = TokenType.EndTagToken
      · rw [parseLoop_end_other st tok _ hk2 (fun h => htok.2.2 ⟨hk2, h⟩)]
        exact ih1 st rest (hspan1 _ rfl)
      · rw [parseLoop_no_tag st tok _ hk hk2]
        exact ih1 st rest (hspan1 _ rfl)

theorem endRow_of_no_values (st : ParseState) (h : st.dataValues = []) :
    endRow st = { st with dataValues := [] } := by
  simp [endRow, h, makeStat]

/-- Counterexample to C10 as stated: in the stream of the markup
`<table><span class="ttext"><tr><td><span class="ttext">X</tr>` the row is the
first `tr` after the `table` start tag and holds only a `td`, a `span` and a
text, yet a record comes out at its end tag: the `tr` start tag was consumed
as the token after the recognized span in front of it, so `rowNumber` is
still 0 inside the row.  The same happens in
`<tr><tr><span class="ttext"><table><tr><td><span class="ttext">X</tr>`, where
the `table` start tag is the token consumed and `rowNumber` is 3 in the row
right after it. -/
theorem first_row_after_table_yields_record :
    parseStats
      [{ Kind := TokenType.StartTagToken, Data := "table" },
       { Kind := TokenType.StartTagToken, Data := "span",
         Attr := [{ Key := "class", Val := "ttext" }] },
       { Kind := TokenType.StartTagToken, Data := "tr" },
       { Kind := TokenType.StartTagToken, Data := "td" },
       { Kind := TokenType.StartTagToken, Data := "span",
         Attr := [{ Key := "class", Val := "ttext" }] },
       { Kind := TokenType.TextToken, Data := "X", Raw := "X" },
       { Kind := TokenType.EndTagToken, Data := "tr" }] =
      ([{ Port := "X" }], none) ∧
    parseStats
      [{ Kind := TokenType.StartTagToken, Data := "tr" },
       { Kind := TokenType.StartTagToken, Data := "tr" },
       { Kind := TokenType.StartTagToken, Data := "span",
         Attr := [{ Key := "class", Val := "ttext" }] },
       { Kind := TokenType.StartTagToken, Data := "table" },
       { Kind := TokenType.StartTagToken, Data := "tr" },
       { Kind := TokenType.StartTagToken, Data := "td" },
       { Kind := TokenType.StartTagToken, Data := "span",
         Attr := [{ Key := "class", Val := "ttext" }] },
       { Kind := TokenType.TextToken, Data := "X", Raw := "X" },
       { Kind := TokenType.EndTagToken, Data := "tr" }] =
      ([{ Port := "X" }], none) := by
  decide

/-- C10, amended: a `span` start tag that the loop meets while `rowNumber` is
1 leaves the parse state as it is and consumes no further token, whatever its
attributes; consequently, when the loop meets a `table` start tag, then tokens
that open or close no row or table and are no `span` start tag, then a `tr`
start tag, and the tokens from there to the next `tr` end tag hold no `table`
or `tr` start tag, that end tag appends no record: the parse goes on from the
same records and the same previous record, with `rowNumber` 1 and no values. -/
theorem header_row_yields_nothing :
    (∀ (st : ParseState) (span : Token) (rest : List Token),
      st.rowNumber = 1 → isStartTag span "span" →
        parseLoop st (span :: rest) = parseLoop st rest) ∧
    (∀ (st : ParseState) (table tr trEnd : Token) (between body rest : List Token),
      isStartTag table "table" → isStartTag tr "tr" → isEndTag trEnd "tr" →
      (∀ t ∈ between, insideRow t ∧ ¬ isStartTag t "span") →
      (∀ t ∈ body, insideRow t) →
        ∃ col, parseLoop st (table :: (between ++ tr :: (body ++ trEnd :: rest))) =
          parseLoop { stats := st.stats, rowNumber := 1, colNumber := col, dataValues := [],
                      previousStat := st.previousStat } rest) := by
  refine ⟨fun st span rest hrow hspan => parseLoop_span_header st span rest hspan hrow, ?_⟩
  intro st table tr trEnd between body rest htable htr hend hbetween hbody
  rw [parseLoop_table st table _ htable]
  obtain ⟨col0, hcol0⟩ := parseLoop_inert between (fun t ht => (hbetween t ht).1)
    { st with rowNumber := 0 } (tr :: (body ++ trEnd :: rest))
    (Or.inr (fun t ht => (hbetween t ht).2))
  rw [hcol0, parseLoop_tr _ tr _ htr]
  obtain ⟨col, hcol⟩ := parseLoop_inert body hbody
    { stats := st.stats, rowNumber := 0 + 1, colNumber := 0, dataValues := [],
      previousStat := st.previousStat } (trEnd :: rest) (Or.inl rfl)
  refine ⟨col, ?_⟩
  rw [hcol, parseLoop_tr_end _ trEnd rest hend, endRow_of_no_values _ rfl]

/-- Witness of the amended C10: after one record, a header row of two cells
with recognized spans adds nothing; the parse ends with that one record. -/
theorem header_row_yields_nothing_witness :
    ∃ col, parseLoop { stats := [{ Port := "WAN" }], rowNumber := 5, dataValues := ["stale"] }
      ({ Kind := TokenType.StartTagToken, Data := "table" } ::
       ([{ Kind := TokenType.TextToken, Data := "\n", Raw := "\n" },
         { Kind := TokenType.StartTagToken, Data := "tbody" }] ++
        { Kind := TokenType.StartTagToken, Data := "tr" } ::
        ([{ Kind := TokenType.StartTagToken, Data := "td" },
          { Kind := TokenType.StartTagToken, Data := "span",
            Attr := [{ Key := "class", Val := "thead" }] },
          { Kind := TokenType.TextToken, Data := "Port", Raw := "Port" },
          { Kind := TokenType.EndTagToken, Data := "span" },
          { Kind := TokenType.EndTagToken, Data := "td" },
          { Kind := TokenType.StartTagToken, Data := "td" },
          { Kind := TokenType.StartTagToken, Data := "span",
            Attr := [{ Key := "CLASS", Val := "TText" }] },
          { Kind := TokenType.TextToken, Data := "Status", Raw := "Status" },
          { Kind := TokenType.EndTagToken, Data := "span" },
          { Kind := TokenType.EndTagToken, Data := "td" }] ++
         { Kind := TokenType.EndTagToken, Data := "tr" } :: []))) =
      parseLoop { stats := [{ Port := "WAN" }], rowNumber := 1, colNumber := col,
                  dataValues := [], previousStat := none } [] :=
  header_row_yields_nothing.2
    { stats := [{ Port := "WAN" }], rowNumber := 5, dataValues := ["stale"] }
    { Kind := TokenType.StartTagToken, Data := "table" }
    { Kind := TokenType.StartTagToken, Data := "tr" }
    { Kind := TokenType.EndTagToken, Data := "tr" }
    [{ Kind := TokenType.TextToken, Data := "\n", Raw := "\n" },
     { Kind := TokenType.StartTagToken, Data := "tbody" }]
    [{ Kind := TokenType.StartTagToken, Data := "td" },
     { Kind := TokenType.StartTagToken, Data := "span",
       Attr := [{ Key := "class", Val := "thead" }] },
     { Kind := TokenType.TextToken, Data := "Port", Raw := "Port" },
     { Kind := TokenType.EndTagToken, Data := "span" },
     { Kind := TokenType.EndTagToken, Data := "td" },
     { Kind := TokenType.StartTagToken, Data := "td" },
     { Kind := TokenType.StartTagToken, Data := "span",
       Attr := [{ Key := "CLASS", Val := "TText" }] },
     { Kind := TokenType.TextToken, Data := "Status", Raw := "Status" },
     { Kind := TokenType.EndTagToken, Data := "span" },
     { Kind := TokenType.EndTagToken, Data := "td" }]
    []
    (by decide) (by decide) (by decide) (by decide) (by decide)

/-! ## Theorems about parseNumber -/

theorem char_le_iff (a b : Char) : a ≤ b ↔ a.toNat ≤ b.toNat := Iff.rfl

theorem isDigit_toNat (c : Char) (h : isDigit c = true) : 48 ≤ c.toNat ∧ c.toNat ≤ 57 := by
  simp only [isDigit, decide_eq_true_eq, char_le_iff] at h
  have h0 : '0'.toNat = 48 := rfl
  have h9 : '9'.toNat = 57 := rfl
  omega

theorem digitRun_ge (cs : List Char) : ∀ n, n ≤ digitRun n cs := by
  induction cs with
  | nil => intro n; exact le_refl _
  | cons c cs ih =>
    intro n
    rw [digitRun]
    split_ifs
    · exact le_trans (by omega) (ih _)
    · exact le_refl _

theorem parseUintLoop_eq (cs : List Char) :
    ∀ n, n ≤ maxUint64 →
      parseUintLoop cs n =
        if digitRun n cs > maxUint64 then (maxUint64, some NumError.ErrRange)
        else if cs.all isDigit = true then (digitRun n cs, none)
        else (0, some NumError.ErrSyntax) := by
  induction cs with
  | nil =>
    intro n hn
    simp [parseUintLoop, digitRun, Nat.not_lt.mpr hn]
  | cons c cs ih =>
    intro n hn
    rw [parseUintLoop, digitRun]
    by_cases hc : isDigit c = true
    · have hd := isDigit_toNat c hc
      have h0 : '0'.toNat = 48 := rfl
      have hc' : '0' ≤ c ∧ c ≤ '9' := by simpa [isDigit] using hc
      rw [if_pos hc', if_pos hc]
      simp only [maxUint64] at hn ⊢
      have hge := digitRun_ge cs (n * 10 + (c.toNat - '0'.toNat))
      by_cases hcut : n ≥ (2 ^ 64 - 1) / 10 + 1
      · rw [if_pos hcut, if_pos (by omega)]
      · rw [if_neg hcut]
        by_cases hov : n * 10 + (c.toNat - '0'.toNat) ≥ 2 ^ 64
        · rw [if_pos (by omega), if_pos (by omega)]
        · rw [if_neg (by omega)]
          have hn1 : (n * 10 % 2 ^ 64 + (c.toNat - '0'.toNat)) % 2 ^ 64 =
              n * 10 + (c.toNat - '0'.toNat) := by omega
          rw [hn1, ih _ (by simp only [maxUint64]; omega)]
          simp [hc, maxUint64]
    · have hc' : ¬ ('0' ≤ c ∧ c ≤ '9') := by simpa [isDigit] using hc
      rw [if_neg hc', if_neg hc, if_neg (Nat.not_lt.mpr hn)]
      simp [hc]

theorem ParseUint_eq (body : List Char) :
    ParseUint body =
      if digitRun 0 body > maxUint64 then (maxUint64, some NumError.ErrRange)
      else if body ≠ [] ∧ body.all isDigit = true then (digitRun 0 body, none)
      else (0, some NumError.ErrSyntax) := by
  cases body with
  | nil => simp [ParseUint, digitRun, maxUint64]
  | cons c cs =>
    simp only [ParseUint]
    rw [parseUintLoop_eq (c :: cs) 0 (Nat.zero_le _)]
    simp

theorem ParseInt_splitSign (s : GoString) :
    ParseInt s =
      if (splitSign s).2 = [] then (0, some NumError.ErrSyntax)
      else
        let r := ParseUint (splitSign s).2
        if r.2 = some NumError.ErrSyntax then (0, r.2)
        else if !(splitSign s).1 ∧ r.1 ≥ 2 ^ 63 then (((2 ^ 63 : Nat) : Int) - 1, some NumError.ErrRange)
        else if (splitSign s).1 ∧ r.1 > 2 ^ 63 then (-((2 ^ 63 : Nat) : Int), some NumError.ErrRange)
        else (if (splitSign s).1 then -(r.1 : Int) else (r.1 : Int), none) := by
  unfold ParseInt splitSign
  cases hs : s.data with
  | nil => simp
  | cons c cs =>
    by_cases hm : c = '-'
    · subst hm
      cases cs with
      | nil => simp [ParseUint]
      | cons d ds => simp
    · by_cases hp : c = '+'
      · subst hp
        cases cs with
        | nil => simp [ParseUint]
        | cons d ds => simp
      · simp [hm, hp]

theorem parseNumber_eq (s : GoString) :
    parseNumber s =
      if digitRun 0 (splitSign s).2 > maxUint64 then
        (if (splitSign s).1 then minInt64 else maxInt64)
      else if (splitSign s).2 ≠ [] ∧ (splitSign s).2.all isDigit = true then
        if (splitSign s).1 = false ∧ digitRun 0 (splitSign s).2 ≥ 2 ^ 63 then maxInt64
        else if (splitSign s).1 = true ∧ digitRun 0 (splitSign s).2 > 2 ^ 63 then minInt64
        else if (splitSign s).1 then -(digitRun 0 (splitSign s).2 : Int)
        else (digitRun 0 (splitSign s).2 : Int)
      else 0 := by
  unfold parseNumber
  rw [ParseInt_splitSign]
  generalize splitSign s = sb
  obtain ⟨neg, body⟩ := sb
  dsimp only
  by_cases hb : body = []
  · subst hb
    simp [digitRun, maxUint64]
  · rw [if_neg hb, ParseUint_eq]
    by_cases hov : digitRun 0 body > maxUint64
    · simp only [if_pos hov]
      cases neg <;> simp [minInt64, maxInt64, maxUint64]
    · simp only [if_neg hov]
      by_cases hall : body.all isDigit = true
      · have hcond : body ≠ [] ∧ body.all isDigit = true := ⟨hb, hall⟩
        simp only [if_pos hcond]
        cases neg <;> simp [minInt64, maxInt64] <;> split_ifs <;> rfl
      · have hcond : ¬ (body ≠ [] ∧ body.all isDigit = true) := fun h => hall h.2
        simp only [if_neg hcond]
        simp

theorem literalValue_some (s : GoString) (v : Int) (h : literalValue s = some v) :
    ((splitSign s).2 ≠ [] ∧ (splitSign s).2.all isDigit = true) ∧
      v = if (splitSign s).1 then -(digitRun 0 (splitSign s).2 : Int)
          else (digitRun 0 (splitSign s).2 : Int) := by
  unfold literalValue at h
  dsimp only at h
  by_cases hc : (splitSign s).2 ≠ [] ∧ (splitSign s).2.all isDigit = true
  · rw [if_pos hc] at h
    exact ⟨hc, (Option.some.inj h).symm⟩
  · rw [if_neg hc] at h
    exact absurd h (by simp)

/-- Counterexample to C11 as stated: the digit string 9223372036854775808
denotes 2^63, which lies outside the `int64` range, and `parseNumber` returns
9223372036854775807 for it, not 0. -/
theorem parseNumber_out_of_range_not_zero :
    literalValue "9223372036854775808" = some 9223372036854775808 ∧
    ¬ ((9223372036854775808 : Int) ≤ maxInt64) ∧
    parseNumber "9223372036854775808" = 9223372036854775807 ∧
    parseNumber "9223372036854775808" ≠ 0 := by
  decide

/-- C11, amended: for a text that is an optional sign followed by one or more
decimal digits, `parseNumber` returns the value it denotes when that lies in
the `int64` range, and the nearest bound of the range (2^63 - 1 above, -2^63
below) when it does not; for any other text (the empty text, a text with
blanks or other bytes that are no digit) it returns 0, provided the digits
standing before the first such byte do not already exceed 2^64 - 1; when they
do, it returns the bound of the `int64` range on the side of the sign. -/
theorem parseNumber_of_text (s : GoString) :
    (∀ v, literalValue s = some v → minInt64 ≤ v → v ≤ maxInt64 → parseNumber s = v) ∧
    (∀ v, literalValue s = some v → maxInt64 < v → parseNumber s = maxInt64) ∧
    (∀ v, literalValue s = some v → v < minInt64 → parseNumber s = minInt64) ∧
    (literalValue s = none → digitRun 0 (splitSign s).2 ≤ maxUint64 → parseNumber s = 0) ∧
    (maxUint64 < digitRun 0 (splitSign s).2 →
      parseNumber s = if (splitSign s).1 then minInt64 else maxInt64) := by
  refine ⟨?_, ?_, ?_, ?_, fun hov => by rw [parseNumber_eq, if_pos hov]⟩
  · intro v hv hlo hhi
    obtain ⟨hc, hval⟩ := literalValue_some s v hv
    rw [parseNumber_eq, if_pos hc]
    simp only [minInt64, maxInt64, maxUint64] at *
    cases hneg : (splitSign s).1 <;> simp only [hneg] at hval ⊢ <;> simp at hval ⊢ <;>
      (try split_ifs) <;> omega
  · intro v hv hhi
    obtain ⟨hc, hval⟩ := literalValue_some s v hv
    rw [parseNumber_eq, if_pos hc]
    simp only [minInt64, maxInt64, maxUint64] at *
    cases hneg : (splitSign s).1 <;> simp only [hneg] at hval ⊢ <;> simp at hval ⊢ <;>
      (try split_ifs) <;> (try intros) <;> omega
  · intro v hv hlo
    obtain ⟨hc, hval⟩ := literalValue_some s v hv
    rw [parseNumber_eq, if_pos hc]
    simp only [minInt64, maxInt64, maxUint64] at *
    cases hneg : (splitSign s).1 <;> simp only [hneg] at hval ⊢ <;> simp at hval ⊢ <;>
      (try split_ifs) <;> (try intros) <;> omega
  · intro hnone hrun
    have hc : ¬ ((splitSign s).2 ≠ [] ∧ (splitSign s).2.all isDigit = true) := by
      intro hc
      unfold literalValue at hnone
      dsimp only at hnone
      rw [if_pos hc] at hnone
      exact absurd hnone (by simp)
    rw [parseNumber_eq, if_neg (Nat.not_lt.mpr hrun), if_neg hc]

/-- Witness of the amended C11: -42 is returned as its value, the digit string
99999999999999999999 as the upper bound of `int64`, -9223372036854775809 as
the lower bound, and the text 12 with a blank in front as 0. -/
theorem parseNumber_of_text_witness :
    parseNumber "-42" = -42 ∧ parseNumber "99999999999999999999" = maxInt64 ∧
    parseNumber "-9223372036854775809" = minInt64 ∧ parseNumber " 12" = 0 :=
  ⟨(parseNumber_of_text "-42").1 (-42) (by decide) (by decide) (by decide),
   (parseNumber_of_text "99999999999999999999").2.1 99999999999999999999 (by decide) (by decide),
   (parseNumber_of_text "-9223372036854775809").2.2.1 (-9223372036854775809) (by decide)
     (by decide),
   (parseNumber_of_text " 12").2.2.2.1 (by decide) (by decide)⟩

/-! ## An invariant principle for the loop of parseStats -/

theorem parseLoop_invariant (I : ParseState → Prop) (T : Token → Prop)
    (htable : ∀ st, I st → I { st with rowNumber := 0 })
    (htr : ∀ st, I st →
      I { st with rowNumber := st.rowNumber + 1, colNumber := 0, dataValues := [] })
    (htd : ∀ st, I st → I { st with colNumber := st.colNumber + 1 })
    (htext : ∀ st inner, I st → T inner →
      I { st with dataValues := st.dataValues ++ [inner.Raw] })
    (hend : ∀ st, I st → I (endRow st))
    (st : ParseState) (tokens : List Token) :
    I st → (∀ t ∈ tokens, T t) → ∃ st1, I st1 ∧ parseLoop st tokens = (st1.stats, none) := by
  induction st, tokens using parseLoop.induct with
  | case1 st => intro hI _; exact ⟨st, hI, rfl⟩
  | case2 st tok rest hk hd ih =>
    intro hI hT
    rw [parseLoop_table st tok rest ⟨hk, hd⟩]
    exact ih (htable st hI) (fun t ht => hT t (List.mem_cons_of_mem _ ht))
  | case3 st tok rest hk _ hd ih =>
    intro hI hT
    rw [parseLoop_tr st tok rest ⟨hk, hd⟩]
    exact ih (htr st hI) (fun t ht => hT t (List.mem_cons_of_mem _ ht))
  | case4 st tok rest hk _ _ hd ih =>
    intro hI hT
    rw [parseLoop_td st tok rest ⟨hk, hd⟩]
    exact ih (htd st hI) (fun t ht => hT t (List.mem_cons_of_mem _ ht))
  | case5 st tok rest hk _ _ _ hd hrow ih =>
    intro hI hT
    rw [parseLoop_span_header st tok rest ⟨hk, hd⟩ hrow]
    exact ih hI (fun t ht => hT t (List.mem_cons_of_mem _ ht))
  | case6 st tok rest hk _ _ _ hd _ hf ih =>
    intro hI hT
    rw [parseLoop_span_plain st tok rest ⟨hk, hd⟩ (by simpa using hf)]
    exact ih hI (fun t ht => hT t (List.mem_cons_of_mem _ ht))
  | case7 st tok hk _ _ _ hd _ _ =>
    intro hI _
    rw [parseLoop_span_last st tok ⟨hk, hd⟩]
    exact ⟨st, hI, rfl⟩
  | case8 st tok hk _ _ _ hd hrow hf inner rest1 hin ih =>
    intro hI hT
    rw [parseLoop_span_skip st tok inner rest1 ⟨hk, hd⟩ hrow (by simpa using hf) hin]
    exact ih hI (fun t ht => hT t (List.mem_cons_of_mem _ (List.mem_cons_of_mem _ ht)))
  | case9 st tok hk _ _ _ hd hrow hf inner rest1 hin ih =>
    intro hI hT
    rw [parseLoop_span_text st tok inner rest1 ⟨hk, hd⟩ hrow (by simpa using hf)
      (by simpa using hin)]
    exact ih (htext st inner hI (hT inner (List.mem_cons_of_mem _ (List.mem_cons_self _ _))))
      (fun t ht => hT t (List.mem_cons_of_mem _ (List.mem_cons_of_mem _ ht)))
  | case10 st tok rest hk h1 h2 h3 h4 ih =>
    intro hI hT
    rw [parseLoop_start_other st tok rest hk h1 h2 h3 h4]
    exact ih hI (fun t ht => hT t (List.mem_cons_of_mem _ ht))
  | case11 st tok rest hk hd ih =>
    intro hI hT
    rw [parseLoop_tr_end st tok rest ⟨hk, hd⟩]
    exact ih (hend st hI) (fun t ht => hT t (List.mem_cons_of_mem _ ht))
  | case12 st tok rest hk hd ih =>
    intro hI hT
    rw [parseLoop_end_other st tok rest hk hd]
    exact ih hI (fun t ht => hT t (List.mem_cons_of_mem _ ht))
  | case13 st tok rest h1 h2 ih =>
    intro hI hT
    rw [parseLoop_no_tag st tok rest h1 h2]
    exact ih hI (fun t ht => hT t (List.mem_cons_of_mem _ ht))

/-! ## Theorems about the sign of the counters -/

theorem parseNumber_neg_iff (v : GoString) : parseNumber v < 0 ↔ negativeText v = true := by
  rw [parseNumber_eq]
  unfold negativeText literalValue
  generalize splitSign v = sb
  obtain ⟨neg, body⟩ := sb
  dsimp only
  by_cases hov : digitRun 0 body > maxUint64
  · rw [if_pos hov]
    cases neg
    · by_cases hc : body ≠ [] ∧ body.all isDigit = true
      · rw [if_pos hc]; simp [maxInt64]
      · rw [if_neg hc]; simp [maxInt64]
    · simp [minInt64, hov]
  · rw [if_neg hov]
    by_cases hc : body ≠ [] ∧ body.all isDigit = true
    · rw [if_pos hc, if_pos hc]
      simp only [maxUint64] at hov
      cases neg <;> simp [minInt64, maxInt64, maxUint64] <;> split_ifs <;> omega
    · rw [if_neg hc, if_neg hc]
      simp [hov]

theorem parseNumber_nonneg_iff (v : GoString) : 0 ≤ parseNumber v ↔ negativeText v = false := by
  rw [← Bool.not_eq_true, ← parseNumber_neg_iff]
  exact not_lt.symm

theorem nonNegCounters_fillByShape_iff (v0 : GoString) (input : List GoString) :
    nonNegCounters (fillByShape { Port := v0 } input) ↔
      (counterTexts input).all (fun v => !negativeText v) = true := by
  unfold fillByShape counterTexts
  split
  · simp [nonNegCounters]
  · simp only [nonNegCounters, parseNumber_nonneg_iff, List.all_cons, List.all_nil,
      Bool.and_true, Bool.and_eq_true, Bool.not_eq_true']
  · next h3 h8 =>
    split
    · exact absurd rfl (h8 _ _ _ _ _ _ _ _)
    · simp [nonNegCounters]

theorem nonNegCounters_makeStat_iff (v0 : GoString) (vs : List GoString)
    (previous : Option routerStat) (hp : ∀ p, previous = some p → nonNegCounters p) :
    ∃ r, makeStat (v0 :: vs) previous = some r ∧ r.Port = v0 ∧
      (nonNegCounters r ↔ safeRow (previous.map routerStat.Port) (v0 :: vs) = true) := by
  refine ⟨_, makeStat_cons v0 vs previous, ?_, ?_⟩
  · rw [(shareLAN_fields _ previous).1, fillByShape_Port]
  · unfold safeRow lanAfterLan
    cases previous with
    | none =>
      rw [shareLAN_of_noPairing _ none (fun p hp => Option.noConfusion hp)]
      simp [nonNegCounters_fillByShape_iff]
    | some p =>
      by_cases hpair : HasPrefix p.Port "LAN" = true ∧ HasPrefix v0 "LAN" = true
      · rw [shareLAN_of_pairing _ p hpair.1 (by rw [fillByShape_Port]; exact hpair.2)]
        have hpn : nonNegCounters (withCounters (fillByShape { Port := v0 } (v0 :: vs)) p) :=
          hp p rfl
        simp [hpn, hpair.1, hpair.2]
      · rw [shareLAN_of_noPairing _ (some p) (fun q hq => by
          rw [fillByShape_Port]
          rw [← Option.some.inj hq]
          by_cases h1 : HasPrefix p.Port "LAN" = true
          · right
            cases h2 : HasPrefix v0 "LAN" with
            | false => rfl
            | true => exact absurd ⟨h1, h2⟩ hpair
          · left
            simpa using h1)]
        rw [nonNegCounters_fillByShape_iff]
        have hfalse : (HasPrefix p.Port "LAN" && HasPrefix v0 "LAN") = false := by
          cases h1 : HasPrefix p.Port "LAN" <;> cases h2 : HasPrefix v0 "LAN" <;> simp_all
        simp [hfalse]

theorem mapRows_nonneg_iff (rows : List (List GoString)) :
    ∀ previous : Option routerStat, (∀ p, previous = some p → nonNegCounters p) →
      ((∀ r ∈ mapRows previous rows, nonNegCounters r) ↔
        safeRows (previous.map routerStat.Port) rows = true) := by
  induction rows with
  | nil => intro previous _; simp [mapRows, safeRows]
  | cons vs rest ih =>
    intro previous hp
    cases vs with
    | nil =>
      have h0 : makeStat [] previous = none := rfl
      simp only [mapRows, h0, safeRows]
      exact ih previous hp
    | cons v0 vs =>
      obtain ⟨r, hr, hport, hiff⟩ := nonNegCounters_makeStat_iff v0 vs previous hp
      simp only [mapRows, hr, safeRows, Bool.and_eq_true, List.mem_cons, forall_eq_or_imp]
      rw [← hiff]
      constructor
      · rintro ⟨h1, h2⟩
        refine ⟨h1, ?_⟩
        have := ih (some r) (fun p hp => by rw [← Option.some.inj hp]; exact h1)
        rw [Option.map_some', hport] at this
        exact this.mp h2
      · rintro ⟨h1, h2⟩
        refine ⟨h1, ?_⟩
        have := ih (some r) (fun p hp => by rw [← Option.some.inj hp]; exact h1)
        rw [Option.map_some', hport] at this
        exact this.mpr h2

theorem handedRows_cons (st : ParseState) (tok : Token) (rest : List Token) :
    handedRows st (tok :: rest) =
    match tok.Kind with
    | TokenType.StartTagToken =>
      if tok.Data = "table" then
        handedRows { st with rowNumber := 0 } rest
      else if tok.Data = "tr" then
        handedRows { st with rowNumber := st.rowNumber + 1, colNumber := 0, dataValues := [] } rest
      else if tok.Data = "td" then
        handedRows { st with colNumber := st.colNumber + 1 } rest
      else if tok.Data = "span" then
        if st.rowNumber = 1 then handedRows st rest
        else if !spanFound tok.Attr then handedRows st rest
        else
          match rest with
          | [] => []
          | inner :: rest1 =>
            if inner.Kind ≠ TokenType.TextToken then handedRows st rest1
            else handedRows { st with dataValues := st.dataValues ++ [inner.Raw] } rest1
      else handedRows st rest
    | TokenType.EndTagToken =>
      if tok.Data = "tr" then st.dataValues :: handedRows (endRow st) rest
      else handedRows st rest
    | _ => handedRows st rest := by
  cases rest with
  | nil => rw [handedRows.eq_2]
  | cons inner rest1 => rw [handedRows.eq_3]

theorem mapRows_endRow (st : ParseState) (rows : List (List GoString)) :
    (endRow st).stats ++ mapRows (endRow st).previousStat rows =
      st.stats ++ mapRows st.previousStat (st.dataValues :: rows) := by
  unfold endRow
  cases hm : makeStat st.dataValues st.previousStat with
  | none => simp [mapRows, hm]
  | some stat => simp [mapRows, hm]

theorem parseLoop_eq_mapRows (st : ParseState) (tokens : List Token) :
    parseLoop st tokens =
      (st.stats ++ mapRows st.previousStat (handedRows st tokens), none) := by
  induction st, tokens using parseLoop.induct with
  | case1 st => simp [parseLoop_nil, handedRows, mapRows]
  | case2 st tok rest hk hd ih =>
    rw [parseLoop_table st tok rest ⟨hk, hd⟩, ih, handedRows_cons]; simp [hk, hd]
  | case3 st tok rest hk h1 hd ih =>
    rw [parseLoop_tr st tok rest ⟨hk, hd⟩, ih, handedRows_cons]; simp [hk, hd, h1]
  | case4 st tok rest hk h1 h2 hd ih =>
    rw [parseLoop_td st tok rest ⟨hk, hd⟩, ih, handedRows_cons]; simp [hk, hd, h1, h2]
  | case5 st tok rest hk h1 h2 h3 hd hrow ih =>
    rw [parseLoop_span_header st tok rest ⟨hk, hd⟩ hrow, ih, handedRows_cons]
    simp [hk, hd, h1, h2, h3, hrow]
  | case6 st tok rest hk h1 h2 h3 hd hrow hf ih =>
    rw [parseLoop_span_plain st tok rest ⟨hk, hd⟩ (by simpa using hf), ih, handedRows_cons]
    simp [hk, hd, h1, h2, h3, hrow, hf]
  | case7 st tok hk h1 h2 h3 hd hrow hf =>
    rw [parseLoop_span_last st tok ⟨hk, hd⟩, handedRows_cons]
    simp [hk, hd, h1, h2, h3, hrow, hf, mapRows]
  | case8 st tok hk h1 h2 h3 hd hrow hf inner rest1 hin ih =>
    rw [parseLoop_span_skip st tok inner rest1 ⟨hk, hd⟩ hrow (by simpa using hf) hin, ih,
      handedRows_cons]
    simp [hk, hd, h1, h2, h3, hrow, hf, hin]
  | case9 st tok hk h1 h2 h3 hd hrow hf inner rest1 hin ih =>
    rw [parseLoop_span_text st tok inner rest1 ⟨hk, hd⟩ hrow (by simpa using hf)
      (by simpa using hin), ih, handedRows_cons]
    simp [hk, hd, h1, h2, h3, hrow, hf, hin]
  | case10 st tok rest hk h1 h2 h3 h4 ih =>
    rw [parseLoop_start_other st tok rest hk h1 h2 h3 h4, ih, handedRows_cons]
    simp [hk, h1, h2, h3, h4]
  | case11 st tok rest hk hd ih =>
    rw [parseLoop_tr_end st tok rest ⟨hk, hd⟩, ih, handedRows_cons]
    simp only [hk, hd, if_true]
    rw [mapRows_endRow]
  | case12 st tok rest hk hd ih =>
    rw [parseLoop_end_other st tok rest hk hd, ih, handedRows_cons]
    simp [hk, hd]
  | case13 st tok rest h1 h2 ih =>
    rw [parseLoop_no_tag st tok rest h1 h2, ih, handedRows_cons]
    split
    · next h => exact absurd h h1
    · next h => exact absurd h h2
    · rfl

/-- Counterexample to C12 as stated: the 8-value row WAN, Up, -5, 0, 0, 0, 0,
1h with no previous record gives a record whose TxPackets is -5, and
`parseStats` returns that record for a table whose second row holds these
eight values. -/
theorem makeStat_negative_counter :
    makeStat ["WAN", "Up", "-5", "0", "0", "0", "0", "1h"] none =
      some { Port := "WAN", Status := "Up", TxPackets := -5, Uptime := 3600000000000 } ∧
    ¬ nonNegCounters { Port := "WAN", Status := "Up", TxPackets := -5, Uptime := 3600000000000 } ∧
    parseStats
      [{ Kind := TokenType.StartTagToken, Data := "table" },
       { Kind := TokenType.StartTagToken, Data := "tr" },
       { Kind := TokenType.EndTagToken, Data := "tr" },
       { Kind := TokenType.StartTagToken, Data := "tr" },
       { Kind := TokenType.StartTagToken, Data := "span",
         Attr := [{ Key := "class", Val := "ttext" }] },
       { Kind := TokenType.TextToken, Data := "WAN", Raw := "WAN" },
       { Kind := TokenType.StartTagToken, Data := "span",
         Attr := [{ Key := "class", Val := "ttext" }] },
       { Kind := TokenType.TextToken, Data := "Up", Raw := "Up" },
       { Kind := TokenType.StartTagToken, Data := "span",
         Attr := [{ Key := "class", Val := "ttext" }] },
       { Kind := TokenType.TextToken, Data := "-5", Raw := "-5" },
       { Kind := TokenType.StartTagToken, Data := "span",
         Attr := [{ Key := "class", Val := "ttext" }] },
       { Kind := TokenType.TextToken, Data := "0", Raw := "0" },
       { Kind := TokenType.StartTagToken, Data := "span",
         Attr := [{ Key := "class", Val := "ttext" }] },
       { Kind := TokenType.TextToken, Data := "0", Raw := "0" },
       { Kind := TokenType.StartTagToken, Data := "span",
         Attr := [{ Key := "class", Val := "ttext" }] },
       { Kind := TokenType.TextToken, Data := "0", Raw := "0" },
       { Kind := TokenType.StartTagToken, Data := "span",
         Attr := [{ Key := "class", Val := "ttext" }] },
       { Kind := TokenType.TextToken, Data := "0", Raw := "0" },
       { Kind := TokenType.StartTagToken, Data := "span",
         Attr := [{ Key := "class", Val := "ttext" }] },
       { Kind := TokenType.TextToken, Data := "1h", Raw := "1h" },
       { Kind := TokenType.EndTagToken, Data := "tr" }] =
      ([{ Port := "WAN", Status := "Up", TxPackets := -5, Uptime := 3600000000000 }], none) := by
  refine ⟨by decide, by decide, by decide!⟩

/-- C12, amended: for every non-empty row and a previous record (if any) with
non-negative counters, `makeStat` returns a record, and its five traffic
counters are all greater than or equal to 0 exactly when the row is safe: it
is a row starting with "LAN" after a record whose port starts with "LAN", or
none of its counter texts (the third to the seventh value of a row of 8
values) is read as a negative number.  And for every markup, the output of
`parseStats` is `makeStat` applied in turn to the rows that the loop hands to
it, and every record in it has its five traffic counters greater than or
equal to 0 exactly when each of these rows is safe after the row before it. -/
theorem counters_nonneg_iff_safe :
    (∀ (v0 : GoString) (vs : List GoString) (previous : Option routerStat),
      (∀ p, previous = some p → nonNegCounters p) →
      ∃ r, makeStat (v0 :: vs) previous = some r ∧
        (nonNegCounters r ↔ safeRow (previous.map routerStat.Port) (v0 :: vs) = true)) ∧
    (∀ tokens : List Token,
      (parseStats tokens).1 = mapRows none (handedRows {} tokens) ∧
      ((∀ r ∈ (parseStats tokens).1, nonNegCounters r) ↔
        safeRows none (handedRows {} tokens) = true)) := by
  refine ⟨fun v0 vs previous hp => ?_, fun tokens => ?_⟩
  · obtain ⟨r, hr, _, hiff⟩ := nonNegCounters_makeStat_iff v0 vs previous hp
    exact ⟨r, hr, hiff⟩
  · have hs : (parseStats tokens).1 = mapRows none (handedRows {} tokens) := by
      unfold parseStats
      rw [parseLoop_eq_mapRows]
      rfl
    refine ⟨hs, ?_⟩
    rw [hs]
    exact mapRows_nonneg_iff _ none (fun p hp => Option.noConfusion hp)

/-- Witness of the amended C12: after the record of LAN1 with non-negative
counters, the 3-value row WLAN, Link Down, -- and the 8-value row WAN, Up, -0,
--, -x, +7, 480, -2h give records with non-negative counters, and so does the
row LAN2, Up, -5, 0, 0, 0, 0, 1h, which takes its counters from LAN1; the row
WAN, Up, 0, 0, -5, 0, 0, 1h does not; and the records of a table whose header
row holds the text -5 and whose data row is WLAN, Link Down, -5 have
non-negative counters. -/
theorem counters_nonneg_iff_safe_witness :
    (∃ r, makeStat ["WLAN", "Link Down", "--"] (some { Port := "LAN1", TxPackets := 3 }) =
        some r ∧ nonNegCounters r) ∧
    (∃ r, makeStat ["WAN", "Up", "-0", "--", "-x", "+7", "480", "-2h"]
        (some { Port := "LAN1", TxPackets := 3 }) = some r ∧ nonNegCounters r) ∧
    (∃ r, makeStat ["LAN2", "Up", "-5", "0", "0", "0", "0", "1h"]
        (some { Port := "LAN1", TxPackets := 3 }) = some r ∧ nonNegCounters r) ∧
    (∃ r, makeStat ["WAN", "Up", "0", "0", "-5", "0", "0", "1h"]
        (some { Port := "LAN1", TxPackets := 3 }) = some r ∧ ¬ nonNegCounters r) ∧
    (∀ r ∈ (parseStats
      [{ Kind := TokenType.StartTagToken, Data := "table" },
       { Kind := TokenType.StartTagToken, Data := "tr" },
       { Kind := TokenType.StartTagToken, Data := "span",
         Attr := [{ Key := "class", Val := "thead" }] },
       { Kind := TokenType.TextToken, Data := "-5", Raw := "-5" },
       { Kind := TokenType.EndTagToken, Data := "tr" },
       { Kind := TokenType.StartTagToken, Data := "tr" },
       { Kind := TokenType.StartTagToken, Data := "span",
         Attr := [{ Key := "class", Val := "ttext" }] },
       { Kind := TokenType.TextToken, Data := "WLAN", Raw := "WLAN" },
       { Kind := TokenType.StartTagToken, Data := "span",
         Attr := [{ Key := "class", Val := "ttext" }] },
       { Kind := TokenType.TextToken, Data := "Link Down", Raw := "Link Down" },
       { Kind := TokenType.StartTagToken, Data := "span",
         Attr := [{ Key := "class", Val := "ttext" }] },
       { Kind := TokenType.TextToken, Data := "-5", Raw := "-5" },
       { Kind := TokenType.EndTagToken, Data := "tr" }]).1, nonNegCounters r) :=
  have hprev : ∀ p, some ({ Port := "LAN1", TxPackets := 3 } : routerStat) = some p →
      nonNegCounters p := fun p hp => by rw [← Option.some.inj hp]; decide
  ⟨(counters_nonneg_iff_safe.1 "WLAN" ["Link Down", "--"] _ hprev).imp
      (fun _ h => ⟨h.1, h.2.mpr (by decide)⟩),
   (counters_nonneg_iff_safe.1 "WAN" ["Up", "-0", "--", "-x", "+7", "480", "-2h"] _ hprev).imp
      (fun _ h => ⟨h.1, h.2.mpr (by decide)⟩),
   (counters_nonneg_iff_safe.1 "LAN2" ["Up", "-5", "0", "0", "0", "0", "1h"] _ hprev).imp
      (fun _ h => ⟨h.1, h.2.mpr (by decide)⟩),
   (counters_nonneg_iff_safe.1 "WAN" ["Up", "0", "0", "-5", "0", "0", "1h"] _ hprev).imp
      (fun _ h => ⟨h.1, fun hn => absurd (h.2.mp hn) (by decide)⟩),
   (counters_nonneg_iff_safe.2 _).2.mpr (by decide!)⟩

/-! ## Theorems about the uptime -/

/-- Counterexample to C13 as stated: the 3-value row WLAN-2G, Link Down, 5m
gives a record that is down and whose uptime is 5 minutes (300 seconds in
nanoseconds), not zero. -/
theorem makeStat_down_keeps_uptime :
    makeStat ["WLAN-2G", "Link Down", "5m"] none =
      some { Port := "WLAN-2G", Status := "Link Down", Uptime := 300000000000 } ∧
    ({ Port := "WLAN-2G", Status := "Link Down", Uptime := 300000000000 } : routerStat).IsDown =
      true ∧
    ({ Port := "WLAN-2G", Status := "Link Down", Uptime := 300000000000 } : routerStat).Uptime ≠
      0 := by
  decide

/-- C13, amended: the record that `makeStat` produces from a 3-value or an
8-value row has the row's second value as status and `parseDuration` of the
row's last value as uptime, whatever the status is and whatever the previous
record is; the uptime of a record that is down is therefore zero only when its
uptime text is unparsable or denotes the zero duration. -/
theorem makeStat_uptime_of_text :
    (∀ (v0 v1 v2 : GoString) (previous : Option routerStat),
      ∃ r, makeStat [v0, v1, v2] previous = some r ∧ r.Status = v1 ∧
        r.Uptime = parseDuration v2) ∧
    (∀ (v0 v1 v2 v3 v4 v5 v6 v7 : GoString) (previous : Option routerStat),
      ∃ r, makeStat [v0, v1, v2, v3, v4, v5, v6, v7] previous = some r ∧ r.Status = v1 ∧
        r.Uptime = parseDuration v7) := by
  constructor
  · intro v0 v1 v2 previous
    refine ⟨_, makeStat_cons v0 [v1, v2] previous, ?_, ?_⟩
    · rw [(shareLAN_fields _ previous).2.1]; rfl
    · rw [(shareLAN_fields _ previous).2.2]; rfl
  · intro v0 v1 v2 v3 v4 v5 v6 v7 previous
    refine ⟨_, makeStat_cons v0 [v1, v2, v3, v4, v5, v6, v7] previous, ?_, ?_⟩
    · rw [(shareLAN_fields _ previous).2.1]; rfl
    · rw [(shareLAN_fields _ previous).2.2]; rfl

/-! ## Theorems about Name -/

theorem replace_twice_eq_escape (l : List Char) :
    (l.flatMap (fun c => if c = '\\' then "\\\\".data else [c])).flatMap
        (fun c => if c = ' ' then "\\ ".data else [c]) = escapeSinglePass l := by
  induction l with
  | nil => rfl
  | cons c cs ih =>
    rw [List.flatMap_cons, List.flatMap_append, ih, escapeSinglePass]
    by_cases h1 : c = '\\'
    · subst h1; rfl
    · by_cases h2 : c = ' '
      · subst h2; rfl
      · simp [h1, h2]

theorem Name_data (s : routerStat) : s.Name.data = escapeSinglePass s.Port.data := by
  unfold routerStat.Name ReplaceByte
  exact replace_twice_eq_escape s.Port.data

theorem escapeSinglePass_injective (l : List Char) :
    ∀ m, escapeSinglePass l = escapeSinglePass m → l = m := by
  induction l with
  | nil =>
    intro m h
    cases m with
    | nil => rfl
    | cons b m =>
      rw [escapeSinglePass, escapeSinglePass] at h
      split_ifs at h
  | cons a l ih =>
    intro m h
    cases m with
    | nil =>
      rw [escapeSinglePass, escapeSinglePass] at h
      split_ifs at h
    | cons b m =>
      rw [escapeSinglePass, escapeSinglePass] at h
      by_cases ha : a = '\\'
      · by_cases hb : b = '\\'
        · rw [if_pos ha, if_pos hb] at h
          simp only [List.cons.injEq, true_and] at h
          rw [ha, hb, ih m h]
        · by_cases hb2 : b = ' '
          · rw [if_pos ha, if_neg hb, if_pos hb2] at h
            simp at h
          · rw [if_pos ha, if_neg hb, if_neg hb2] at h
            simp only [List.cons.injEq] at h
            exact absurd h.1.symm hb
      · by_cases ha2 : a = ' '
        · by_cases hb : b = '\\'
          · rw [if_neg ha, if_pos ha2, if_pos hb] at h
            simp at h
          · by_cases hb2 : b = ' '
            · rw [if_neg ha, if_pos ha2, if_neg hb, if_pos hb2] at h
              simp only [List.cons.injEq, true_and] at h
              rw [ha2, hb2, ih m h]
            · rw [if_neg ha, if_pos ha2, if_neg hb, if_neg hb2] at h
              simp only [List.cons.injEq] at h
              exact absurd h.1.symm hb
        · by_cases hb : b = '\\'
          · rw [if_neg ha, if_neg ha2, if_pos hb] at h
            simp only [List.cons.injEq] at h
            exact absurd h.1 ha
          · by_cases hb2 : b = ' '
            · rw [if_neg ha, if_neg ha2, if_neg hb, if_pos hb2] at h
              simp only [List.cons.injEq] at h
              exact absurd h.1 ha
            · rw [if_neg ha, if_neg ha2, if_neg hb, if_neg hb2] at h
              simp only [List.cons.injEq] at h
              rw [h.1, ih m h.2]

/-- C14: for every port label, `Name` is the escaping of the port in one pass
over its characters (backslash to two backslashes, space to backslash and
space, any other character copied); the second of the two replacements never
touches a backslash that the first one wrote.  The port 2.4G WLAN b/g/n gives
the name with a backslash in front of each of its two spaces. -/
theorem Name_eq_single_pass :
    (∀ s : routerStat, s.Name = String.mk (escapeSinglePass s.Port.data)) ∧
    ({ Port := "2.4G WLAN b/g/n" } : routerStat).Name = "2.4G\\ WLAN\\ b/g/n" ∧
    ({ Port := "a\\ b" } : routerStat).Name = "a\\\\\\ b" :=
  ⟨fun s => String.ext (Name_data s), by decide, by decide⟩

/-- C20: `Name` is injective on port labels: two records whose names are
equal have equal ports. -/
theorem Name_injective (s t : routerStat) (h : s.Name = t.Name) : s.Port = t.Port := by
  apply String.ext
  apply escapeSinglePass_injective
  rw [← Name_data, ← Name_data, h]

/-- Witness of C20: two records of port `a b\` that differ in their counters
have the same name, and the same port. -/
theorem Name_injective_witness :
    ({ Port := "a b\\", TxPackets := 1 } : routerStat).Port =
      ({ Port := "a b\\", TxPackets := 2 } : routerStat).Port :=
  Name_injective { Port := "a b\\", TxPackets := 1 } { Port := "a b\\", TxPackets := 2 }
    (by decide)

/-! ## Theorems about Classifiction and Availability -/

theorem toUpperRune_ascii :
    ∀ n : Fin 128, ∀ lit ∈ ['W', 'L', 'A', 'N'],
      (toUpperRune (Char.ofNat n) = lit ↔ letterIgnoringCase lit (Char.ofNat n) = true) := by
  decide!

theorem toUpperRune_eq_iff (lit : Char) (hlit : lit ∈ ['W', 'L', 'A', 'N']) (c : Char) :
    toUpperRune c = lit ↔ letterIgnoringCase lit c = true := by
  by_cases hc : c.toNat < 128
  · have := toUpperRune_ascii ⟨c.toNat, hc⟩ lit hlit
    simpa using this
  · have hlt : lit.toNat < 96 := by
      simp only [List.mem_cons, List.mem_singleton, List.not_mem_nil, or_false] at hlit
      rcases hlit with h | h | h | h <;> subst h <;> decide
    have hne : c ≠ lit := fun h => by rw [h] at hc; omega
    have h1 : ¬ ('a' ≤ c ∧ c ≤ 'z') := by
      rw [char_le_iff, char_le_iff]
      have hz : 'z'.toNat = 122 := rfl
      omega
    have hI : ('I' : Char) ≠ lit := by
      simp only [List.mem_cons, List.mem_singleton, List.not_mem_nil, or_false] at hlit
      rcases hlit with h | h | h | h <;> subst h <;> decide
    have hS : ('S' : Char) ≠ lit := by
      simp only [List.mem_cons, List.mem_singleton, List.not_mem_nil, or_false] at hlit
      rcases hlit with h | h | h | h <;> subst h <;> decide
    constructor
    · intro h
      unfold toUpperRune at h
      rw [if_neg h1] at h
      split_ifs at h
      · exact absurd h hI
      · exact absurd h hS
      · exact absurd h hne
    · intro h
      simp only [letterIgnoringCase, decide_eq_true_eq] at h
      rcases h with h | h
      · exact absurd h hne
      · omega

theorem containsAt_iff (sub : List Char) (l : List Char) :
    containsAt sub l = true ↔ ∃ pre post, l = pre ++ sub ++ post := by
  induction l with
  | nil =>
    rw [containsAt, List.isPrefixOf_iff_prefix]
    constructor
    · intro h
      exact ⟨[], [], by simp [List.prefix_nil.mp h]⟩
    · rintro ⟨pre, post, h⟩
      have hsub : sub = [] := by
        have := congrArg List.length h
        simp only [List.length_nil, List.length_append] at this
        exact List.length_eq_zero.mp (by omega)
      rw [hsub]
  | cons c cs ih =>
    rw [containsAt, Bool.or_eq_true, List.isPrefixOf_iff_prefix, ih]
    constructor
    · rintro (⟨t, ht⟩ | ⟨pre, post, h⟩)
      · exact ⟨[], t, by simp [ht]⟩
      · exact ⟨c :: pre, post, by simp [h]⟩
    · rintro ⟨pre, post, h⟩
      cases pre with
      | nil => exact Or.inl ⟨post, by simpa using h.symm⟩
      | cons p pre =>
        simp only [List.cons_append, List.cons.injEq] at h
        exact Or.inr ⟨pre, post, h.2⟩

theorem map_toUpperRune_eq_iff (lit : List Char) (hlit : ∀ x ∈ lit, x ∈ ['W', 'L', 'A', 'N']) :
    ∀ w : List Char, w.map toUpperRune = lit ↔ matchesIgnoringCase lit w = true := by
  induction lit with
  | nil =>
    intro w
    cases w with
    | nil => simp [matchesIgnoringCase]
    | cons c cs => simp [matchesIgnoringCase]
  | cons l ls ih =>
    intro w
    cases w with
    | nil => simp [matchesIgnoringCase]
    | cons c cs =>
      rw [List.map_cons, List.cons.injEq, matchesIgnoringCase, Bool.and_eq_true,
        toUpperRune_eq_iff l (hlit l (List.mem_cons_self _ _)) c,
        ih (fun x hx => hlit x (List.mem_cons_of_mem _ hx)) cs]

theorem Contains_ToUpper_iff (p lit : GoString) (hlit : ∀ x ∈ lit.data, x ∈ ['W', 'L', 'A', 'N']) :
    Contains (ToUpper p) lit = true ↔ containsIgnoringCase lit.data p.data := by
  unfold Contains ToUpper containsIgnoringCase
  rw [containsAt_iff]
  constructor
  · rintro ⟨pre, post, h⟩
    simp only at h
    obtain ⟨l12, l3, h1, h2, _⟩ := List.map_eq_append_iff.mp h
    obtain ⟨l1, l2, h3, _, h5⟩ := List.map_eq_append_iff.mp h2
    exact ⟨l1, l2, l3, by rw [h1, h3], (map_toUpperRune_eq_iff _ hlit l2).mp h5⟩
  · rintro ⟨pre, w, post, h, hm⟩
    refine ⟨pre.map toUpperRune, post.map toUpperRune, ?_⟩
    simp only
    rw [h, List.map_append, List.map_append, (map_toUpperRune_eq_iff _ hlit w).mpr hm]

theorem HasPrefix_ToUpper_iff (p lit : GoString) (hlit : ∀ x ∈ lit.data, x ∈ ['W', 'L', 'A', 'N']) :
    HasPrefix (ToUpper p) lit = true ↔ startsWithIgnoringCase lit.data p.data := by
  unfold HasPrefix ToUpper startsWithIgnoringCase
  rw [List.isPrefixOf_iff_prefix]
  constructor
  · rintro ⟨t, h⟩
    simp only at h
    obtain ⟨l1, l2, h1, h2, _⟩ := List.map_eq_append_iff.mp h.symm
    exact ⟨l1, l2, h1, (map_toUpperRune_eq_iff _ hlit l1).mp h2⟩
  · rintro ⟨w, post, h, hm⟩
    refine ⟨post.map toUpperRune, ?_⟩
    simp only
    rw [h, List.map_append, (map_toUpperRune_eq_iff _ hlit w).mpr hm]

/-- C15: `Classifiction` returns "Wireless" when the port contains the word
WLAN ignoring case and "Wired" otherwise; `Availability` returns "External"
when the port starts with the word WAN ignoring case and "Internal" otherwise;
two records with the same port get the same two answers. -/
theorem classification_and_availability (s : routerStat) :
    (containsIgnoringCase "WLAN".data s.Port.data → s.Classifiction = "Wireless") ∧
    (¬ containsIgnoringCase "WLAN".data s.Port.data → s.Classifiction = "Wired") ∧
    (startsWithIgnoringCase "WAN".data s.Port.data → s.Availability = "External") ∧
    (¬ startsWithIgnoringCase "WAN".data s.Port.data → s.Availability = "Internal") ∧
    (∀ t : routerStat, t.Port = s.Port →
      t.Classifiction = s.Classifiction ∧ t.Availability = s.Availability) := by
  have hc := Contains_ToUpper_iff s.Port "WLAN" (by decide)
  have ha := HasPrefix_ToUpper_iff s.Port "WAN" (by decide)
  refine ⟨?_, ?_, ?_, ?_, ?_⟩
  · intro h
    unfold routerStat.Classifiction
    rw [if_pos (hc.mpr h)]
  · intro h
    unfold routerStat.Classifiction
    rw [if_neg (fun hh => h (hc.mp hh))]
  · intro h
    unfold routerStat.Availability
    rw [if_pos (ha.mpr h)]
  · intro h
    unfold routerStat.Availability
    rw [if_neg (fun hh => h (ha.mp hh))]
  · intro t ht
    unfold routerStat.Classifiction routerStat.Availability
    rw [ht]
    exact ⟨rfl, rfl⟩

/-- Witness of C15: the port WLAN-2G is Wireless and Internal, the port WAN
is Wired and External, and the port wlan0 in lower case is Wireless. -/
theorem classification_and_availability_witness :
    (({ Port := "WLAN-2G" } : routerStat).Classifiction = "Wireless" ∧
      ({ Port := "WLAN-2G" } : routerStat).Availability = "Internal") ∧
    (({ Port := "WAN" } : routerStat).Classifiction = "Wired" ∧
      ({ Port := "WAN" } : routerStat).Availability = "External") ∧
    ({ Port := "wlan0" } : routerStat).Classifiction = "Wireless" :=
  ⟨⟨(classification_and_availability { Port := "WLAN-2G" }).1
      ⟨[], "WLAN".data, "-2G".data, by decide, by decide⟩, by decide⟩,
   ⟨by decide, (classification_and_availability { Port := "WAN" }).2.2.1
      ⟨"WAN".data, [], by decide, by decide⟩⟩,
   (classification_and_availability { Port := "wlan0" }).1
      ⟨[], "wlan".data, "0".data, by decide, by decide⟩⟩

/-! ## Theorems about adjacent LAN records -/

theorem lanPaired_makeStat (input : List GoString) (p stat : routerStat)
    (h : makeStat input (some p) = some stat) : lanPaired p stat := by
  intro hp hs
  cases input with
  | nil => simp [makeStat] at h
  | cons v0 vs =>
    rw [makeStat_cons] at h
    have hstat := Option.some.inj h
    have hport : (fillByShape { Port := v0 } (v0 :: vs)).Port = stat.Port := by
      rw [← hstat, (shareLAN_fields _ _).1]
    rw [shareLAN_of_pairing _ _ hp (by rw [hport]; exact hs)] at hstat
    rw [← hstat]
    exact ⟨rfl, rfl, rfl, rfl, rfl⟩

theorem lanChain_endRow (st : ParseState)
    (h : List.Chain' lanPaired st.stats ∧ st.previousStat = st.stats.getLast?) :
    List.Chain' lanPaired (endRow st).stats ∧
      (endRow st).previousStat = (endRow st).stats.getLast? := by
  unfold endRow
  cases hm : makeStat st.dataValues st.previousStat with
  | none => exact h
  | some stat =>
    refine ⟨?_, by simp⟩
    show List.Chain' lanPaired (st.stats ++ [stat])
    rw [List.chain'_append]
    refine ⟨h.1, List.chain'_singleton _, ?_⟩
    intro x hx y hy
    have hy' : y = stat := by simpa using hy.symm
    subst hy'
    have hprev : st.previousStat = some x := by rw [h.2]; exact hx
    rw [hprev] at hm
    exact lanPaired_makeStat _ _ _ hm

theorem parseStats_lanChain (tokens : List Token) :
    List.Chain' lanPaired (parseStats tokens).1 := by
  obtain ⟨st1, hI, hres⟩ := parseLoop_invariant
    (fun st => List.Chain' lanPaired st.stats ∧ st.previousStat = st.stats.getLast?)
    (fun _ => True)
    (fun _ h => h) (fun _ h => h) (fun _ h => h) (fun _ _ h _ => h)
    lanChain_endRow {} tokens ⟨List.chain'_nil, rfl⟩ (fun _ _ => trivial)
  have hstats : (parseStats tokens).1 = st1.stats := by
    unfold parseStats; rw [hres]
  rw [hstats]
  exact hI.1

/-- C16: in the output of `parseStats`, for every markup, every two adjacent
records whose ports both start with "LAN" have equal traffic counters: the
later record carries the five counters of the earlier one, whatever lies
between the two rows in the markup. -/
theorem adjacent_lan_records_share_counters (tokens : List Token)
    (pre post : List routerStat) (a b : routerStat)
    (hout : (parseStats tokens).1 = pre ++ a :: b :: post)
    (ha : HasPrefix a.Port "LAN" = true) (hb : HasPrefix b.Port "LAN" = true) :
    sameCounters a b := by
  have hchain := parseStats_lanChain tokens
  rw [hout, List.chain'_append] at hchain
  exact (List.chain'_cons.mp hchain.2.1).1 ha hb

/-- Witness of C16: the row LAN1, Up, 10, 20, 0, 100, 200, 1h, then a row
without values and the end of the table, then in a second table after its
header row the row LAN2, Up, 2h: the two records are adjacent in the output
and the second carries the counters 10, 20, 0, 100, 200. -/
theorem adjacent_lan_records_share_counters_witness :
    sameCounters
      { Port := "LAN1", Status := "Up", TxPackets := 10, RxPackets := 20, Collisions := 0,
        TxBytesPerSecond := 100, RxBytesPerSecond := 200, Uptime := 3600000000000 }
      { Port := "LAN2", Status := "Up", TxPackets := 10, RxPackets := 20, Collisions := 0,
        TxBytesPerSecond := 100, RxBytesPerSecond := 200, Uptime := 7200000000000 } :=
  adjacent_lan_records_share_counters
    [{ Kind := TokenType.StartTagToken, Data := "table" },
     { Kind := TokenType.StartTagToken, Data := "tr" },
     { Kind := TokenType.EndTagToken, Data := "tr" },
     { Kind := TokenType.StartTagToken, Data := "tr" },
     { Kind := TokenType.StartTagToken, Data := "span",
       Attr := [{ Key := "class", Val := "ttext" }] },
     { Kind := TokenType.TextToken, Data := "LAN1", Raw := "LAN1" },
     { Kind := TokenType.StartTagToken, Data := "span",
       Attr := [{ Key := "class", Val := "ttext" }] },
     { Kind := TokenType.TextToken, Data := "Up", Raw := "Up" },
     { Kind := TokenType.StartTagToken, Data := "span",
       Attr := [{ Key := "class", Val := "ttext" }] },
     { Kind := TokenType.TextToken, Data := "10", Raw := "10" },
     { Kind := TokenType.StartTagToken, Data := "span",
       Attr := [{ Key := "class", Val := "ttext" }] },
     { Kind := TokenType.TextToken, Data := "20", Raw := "20" },
     { Kind := TokenType.StartTagToken, Data := "span",
       Attr := [{ Key := "class", Val := "ttext" }] },
     { Kind := TokenType.TextToken, Data := "0", Raw := "0" },
     { Kind := TokenType.StartTagToken, Data := "span",
       Attr := [{ Key := "class", Val := "ttext" }] },
     { Kind := TokenType.TextToken, Data := "100", Raw := "100" },
     { Kind := TokenType.StartTagToken, Data := "span",
       Attr := [{ Key := "class", Val := "ttext" }] },
     { Kind := TokenType.TextToken, Data := "200", Raw := "200" },
     { Kind := TokenType.StartTagToken, Data := "span",
       Attr := [{ Key := "class", Val := "ttext" }] },
     { Kind := TokenType.TextToken, Data := "1h", Raw := "1h" },
     { Kind := TokenType.EndTagToken, Data := "tr" },
     { Kind := TokenType.StartTagToken, Data := "tr" },
     { Kind := TokenType.EndTagToken, Data := "tr" },
     { Kind := TokenType.EndTagToken, Data := "table" },
     { Kind := TokenType.StartTagToken, Data := "table" },
     { Kind := TokenType.StartTagToken, Data := "tr" },
     { Kind := TokenType.EndTagToken, Data := "tr" },
     { Kind := TokenType.StartTagToken, Data := "tr" },
     { Kind := TokenType.StartTagToken, Data := "span",
       Attr := [{ Key := "class", Val := "ttext" }] },
     { Kind := TokenType.TextToken, Data := "LAN2", Raw := "LAN2" },
     { Kind := TokenType.StartTagToken, Data := "span",
       Attr := [{ Key := "class", Val := "ttext" }] },
     { Kind := TokenType.TextToken, Data := "Up", Raw := "Up" },
     { Kind := TokenType.StartTagToken, Data := "span",
       Attr := [{ Key := "class", Val := "ttext" }] },
     { Kind := TokenType.TextToken, Data := "2h", Raw := "2h" },
     { Kind := TokenType.EndTagToken, Data := "tr" }]
    [] []
    { Port := "LAN1", Status := "Up", TxPackets := 10, RxPackets := 20, Collisions := 0,
      TxBytesPerSecond := 100, RxBytesPerSecond := 200, Uptime := 3600000000000 }
    { Port := "LAN2", Status := "Up", TxPackets := 10, RxPackets := 20, Collisions := 0,
      TxBytesPerSecond := 100, RxBytesPerSecond := 200, Uptime := 7200000000000 }
    (by decide!) (by decide) (by decide)

/-! ## Theorems about the span handling outside the header row -/

theorem spanFound_iff (attrs : List Attribute) :
    spanFound attrs = true ↔ hasRecognizedClass attrs := by
  unfold spanFound hasRecognizedClass
  simp only [List.any_eq_true, Bool.and_eq_true, Bool.or_eq_true]

/-- C17: for a `span` start tag met while `rowNumber` is not 1: without a
recognized class attribute the loop goes on from the same state on the very
next token; with one, the next token is consumed, its raw text is appended to
the values when it is a text token, and it is dropped with no change of the
state when it is any other token; at the end of the stream the parse ends. -/
theorem span_outside_header (st : ParseState) (span : Token)
    (hspan : isStartTag span "span") (hrow : st.rowNumber ≠ 1) :
    (¬ hasRecognizedClass span.Attr →
      ∀ rest, parseLoop st (span :: rest) = parseLoop st rest) ∧
    (hasRecognizedClass span.Attr →
      (∀ inner rest, inner.Kind = TokenType.TextToken →
        parseLoop st (span :: inner :: rest) =
          parseLoop { st with dataValues := st.dataValues ++ [inner.Raw] } rest) ∧
      (∀ inner rest, inner.Kind ≠ TokenType.TextToken →
        parseLoop st (span :: inner :: rest) = parseLoop st rest) ∧
      parseLoop st [span] = (st.stats, none)) := by
  constructor
  · intro hno rest
    have hf : spanFound span.Attr = false := by
      cases h : spanFound span.Attr with
      | false => rfl
      | true => exact absurd ((spanFound_iff _).mp h) hno
    exact parseLoop_span_plain st span rest hspan hf
  · intro hyes
    have hf : spanFound span.Attr = true := (spanFound_iff _).mpr hyes
    exact ⟨fun inner rest hin => parseLoop_span_text st span inner rest hspan hrow hf hin,
      fun inner rest hin => parseLoop_span_skip st span inner rest hspan hrow hf hin,
      parseLoop_span_last st span hspan⟩

/-- Witness of C17: in row 2 with the value LAN1 pending, a span of class
TTEXT followed by a `tr` start tag drops that tag: the parse goes on with
`rowNumber` 2 and the value LAN1, and the text Up after a second such span is
appended at the end of the values. -/
theorem span_outside_header_witness :
    parseLoop { rowNumber := 2, dataValues := ["LAN1"] }
      [{ Kind := TokenType.StartTagToken, Data := "span",
         Attr := [{ Key := "class", Val := "TTEXT" }] },
       { Kind := TokenType.StartTagToken, Data := "tr" },
       { Kind := TokenType.StartTagToken, Data := "span",
         Attr := [{ Key := "class", Val := "TTEXT" }] },
       { Kind := TokenType.TextToken, Data := "Up", Raw := "Up" }] =
      parseLoop { rowNumber := 2, dataValues := ["LAN1", "Up"] } [] :=
  ((span_outside_header { rowNumber := 2, dataValues := ["LAN1"] }
      { Kind := TokenType.StartTagToken, Data := "span",
        Attr := [{ Key := "class", Val := "TTEXT" }] }
      (by decide) (by decide)).2
      ⟨{ Key := "class", Val := "TTEXT" }, by decide, by decide, Or.inr (by decide)⟩).2.1
      { Kind := TokenType.StartTagToken, Data := "tr" } _ (by decide) |>.trans
    (((span_outside_header { rowNumber := 2, dataValues := ["LAN1"] }
      { Kind := TokenType.StartTagToken, Data := "span",
        Attr := [{ Key := "class", Val := "TTEXT" }] }
      (by decide) (by decide)).2
      ⟨{ Key := "class", Val := "TTEXT" }, by decide, by decide, Or.inr (by decide)⟩).1
      { Kind := TokenType.TextToken, Data := "Up", Raw := "Up" } [] (by decide))

/-! ## Theorems about the growth of the output -/

theorem parseLoop_prefix (st : ParseState) (s t : List Token) :
    (parseLoop st s).1 <+: (parseLoop st (s ++ t)).1 := by
  induction st, s using parseLoop.induct with
  | case1 st =>
    obtain ⟨more, hmore⟩ := parseLoop_accumulates st t
    rw [List.nil_append, hmore]
    exact ⟨more, rfl⟩
  | case2 st tok rest hk hd ih =>
    rw [List.cons_append, parseLoop_table st tok rest ⟨hk, hd⟩,
      parseLoop_table st tok (rest ++ t) ⟨hk, hd⟩]
    exact ih
  | case3 st tok rest hk _ hd ih =>
    rw [List.cons_append, parseLoop_tr st tok rest ⟨hk, hd⟩,
      parseLoop_tr st tok (rest ++ t) ⟨hk, hd⟩]
    exact ih
  | case4 st tok rest hk _ _ hd ih =>
    rw [List.cons_append, parseLoop_td st tok rest ⟨hk, hd⟩,
      parseLoop_td st tok (rest ++ t) ⟨hk, hd⟩]
    exact ih
  | case5 st tok rest hk _ _ _ hd hrow ih =>
    rw [List.cons_append, parseLoop_span_header st tok rest ⟨hk, hd⟩ hrow,
      parseLoop_span_header st tok (rest ++ t) ⟨hk, hd⟩ hrow]
    exact ih
  | case6 st tok rest hk _ _ _ hd _ hf ih =>
    rw [List.cons_append, parseLoop_span_plain st tok rest ⟨hk, hd⟩ (by simpa using hf),
      parseLoop_span_plain st tok (rest ++ t) ⟨hk, hd⟩ (by simpa using hf)]
    exact ih
  | case7 st tok hk _ _ _ hd _ _ =>
    obtain ⟨more, hmore⟩ := parseLoop_accumulates st ([tok] ++ t)
    rw [parseLoop_span_last st tok ⟨hk, hd⟩, hmore]
    exact ⟨more, rfl⟩
  | case8 st tok hk _ _ _ hd hrow hf inner rest1 hin ih =>
    rw [List.cons_append, List.cons_append,
      parseLoop_span_skip st tok inner rest1 ⟨hk, hd⟩ hrow (by simpa using hf) hin,
      parseLoop_span_skip st tok inner (rest1 ++ t) ⟨hk, hd⟩ hrow (by simpa using hf) hin]
    exact ih
  | case9 st tok hk _ _ _ hd hrow hf inner rest1 hin ih =>
    rw [List.cons_append, List.cons_append,
      parseLoop_span_text st tok inner rest1 ⟨hk, hd⟩ hrow (by simpa using hf)
        (by simpa using hin),
      parseLoop_span_text st tok inner (rest1 ++ t) ⟨hk, hd⟩ hrow (by simpa using hf)
        (by simpa using hin)]
    exact ih
  | case10 st tok rest hk h1 h2 h3 h4 ih =>
    rw [List.cons_append, parseLoop_start_other st tok rest hk h1 h2 h3 h4,
      parseLoop_start_other st tok (rest ++ t) hk h1 h2 h3 h4]
    exact ih
  | case11 st tok rest hk hd ih =>
    rw [List.cons_append, parseLoop_tr_end st tok rest ⟨hk, hd⟩,
      parseLoop_tr_end st tok (rest ++ t) ⟨hk, hd⟩]
    exact ih
  | case12 st tok rest hk hd ih =>
    rw [List.cons_append, parseLoop_end_other st tok rest hk hd,
      parseLoop_end_other st tok (rest ++ t) hk hd]
    exact ih
  | case13 st tok rest h1 h2 ih =>
    rw [List.cons_append, parseLoop_no_tag st tok rest h1 h2,
      parseLoop_no_tag st tok (rest ++ t) h1 h2]
    exact ih

/-- C19: records are append-only: for every two token streams `s` and `t`,
the records that `parseStats` returns for `s` are a prefix of the records it
returns for `s` followed by `t`. -/
theorem parseStats_append_only (s t : List Token) :
    (parseStats s).1 <+: (parseStats (s ++ t)).1 :=
  parseLoop_prefix {} s t

/-! ## Theorems about a whole table -/

theorem endRow_colNumber (st : ParseState) (c : Nat) :
    endRow { st with colNumber := c } = { endRow st with colNumber := c } := by
  unfold endRow
  dsimp only
  split <;> rfl

theorem parseLoop_colNumber (st : ParseState) (tokens : List Token) :
    ∀ c, parseLoop { st with colNumber := c } tokens = parseLoop st tokens := by
  induction st, tokens using parseLoop.induct with
  | case1 st => intro c; rfl
  | case2 st tok rest hk hd ih =>
    intro c
    rw [parseLoop_table _ tok rest ⟨hk, hd⟩, parseLoop_table st tok rest ⟨hk, hd⟩]
    exact ih c
  | case3 st tok rest hk _ hd ih =>
    intro c
    rw [parseLoop_tr _ tok rest ⟨hk, hd⟩, parseLoop_tr st tok rest ⟨hk, hd⟩]
  | case4 st tok rest hk _ _ hd ih =>
    intro c
    rw [parseLoop_td _ tok rest ⟨hk, hd⟩, parseLoop_td st tok rest ⟨hk, hd⟩]
    exact ih (c + 1)
  | case5 st tok rest hk _ _ _ hd hrow ih =>
    intro c
    rw [parseLoop_span_header { st with colNumber := c } tok rest ⟨hk, hd⟩ hrow,
      parseLoop_span_header st tok rest ⟨hk, hd⟩ hrow]
    exact ih c
  | case6 st tok rest hk _ _ _ hd _ hf ih =>
    intro c
    rw [parseLoop_span_plain _ tok rest ⟨hk, hd⟩ (by simpa using hf),
      parseLoop_span_plain st tok rest ⟨hk, hd⟩ (by simpa using hf)]
    exact ih c
  | case7 st tok hk _ _ _ hd _ _ =>
    intro c
    rw [parseLoop_span_last _ tok ⟨hk, hd⟩, parseLoop_span_last st tok ⟨hk, hd⟩]
  | case8 st tok hk _ _ _ hd hrow hf inner rest1 hin ih =>
    intro c
    rw [parseLoop_span_skip { st with colNumber := c } tok inner rest1 ⟨hk, hd⟩ hrow (by simpa using hf) hin,
      parseLoop_span_skip st tok inner rest1 ⟨hk, hd⟩ hrow (by simpa using hf) hin]
    exact ih c
  | case9 st tok hk _ _ _ hd hrow hf inner rest1 hin ih =>
    intro c
    rw [parseLoop_span_text { st with colNumber := c } tok inner rest1 ⟨hk, hd⟩ hrow (by simpa using hf)
        (by simpa using hin),
      parseLoop_span_text st tok inner rest1 ⟨hk, hd⟩ hrow (by simpa using hf)
        (by simpa using hin)]
    exact ih c
  | case10 st tok rest hk h1 h2 h3 h4 ih =>
    intro c
    rw [parseLoop_start_other _ tok rest hk h1 h2 h3 h4,
      parseLoop_start_other st tok rest hk h1 h2 h3 h4]
    exact ih c
  | case11 st tok rest hk hd ih =>
    intro c
    rw [parseLoop_tr_end _ tok rest ⟨hk, hd⟩, parseLoop_tr_end st tok rest ⟨hk, hd⟩,
      endRow_colNumber]
    exact ih c
  | case12 st tok rest hk hd ih =>
    intro c
    rw [parseLoop_end_other _ tok rest hk hd, parseLoop_end_other st tok rest hk hd]
    exact ih c
  | case13 st tok rest h1 h2 ih =>
    intro c
    rw [parseLoop_no_tag _ tok rest h1 h2, parseLoop_no_tag st tok rest h1 h2]
    exact ih c

theorem parseLoop_fillers (toks : List Token) (h : ∀ t ∈ toks, filler t) :
    ∀ (st : ParseState) (rest : List Token),
      parseLoop st (toks ++ rest) = parseLoop st rest := by
  induction toks with
  | nil => intro st rest; rfl
  | cons tok toks ih =>
    intro st rest
    have htok : filler tok := h tok (List.mem_cons_self _ _)
    have ih1 := ih (fun t ht => h t (List.mem_cons_of_mem _ ht))
    rw [List.cons_append]
    by_cases hk : tok.Kind = TokenType.StartTagToken
    · by_cases htd : tok.Data = "td"
      · rw [parseLoop_td st tok _ ⟨hk, htd⟩, ih1, parseLoop_colNumber]
      · by_cases hsp : tok.Data = "span"
        · have hf : spanFound tok.Attr = false := by
            cases hfound : spanFound tok.Attr with
            | false => rfl
            | true => exact absurd ((spanFound_iff _).mp hfound) (htok.2 ⟨hk, hsp⟩)
          rw [parseLoop_span_plain st tok _ ⟨hk, hsp⟩ hf, ih1]
        · rw [parseLoop_start_other st tok _ hk (fun h => htok.1.1 ⟨hk, h⟩)
            (fun h => htok.1.2.1 ⟨hk, h⟩) htd hsp, ih1]
    · by_cases hk2 : tok.Kind = TokenType.EndTagToken
      · rw [parseLoop_end_other st tok _ hk2 (fun h => htok.1.2.2 ⟨hk2, h⟩), ih1]
      · rw [parseLoop_no_tag st tok _ hk hk2, ih1]

theorem parseLoop_header_tokens (body : List Token) (h : ∀ t ∈ body, insideRow t)
    (st : ParseState) (rest : List Token) (hrow : st.rowNumber = 1) :
    parseLoop st (body ++ rest) = parseLoop st rest := by
  obtain ⟨col, hcol⟩ := parseLoop_inert body h st rest (Or.inl hrow)
  rw [hcol, parseLoop_colNumber]

theorem parseLoop_cell (c : CellMarkup) (hc : c.wellFormed) (st : ParseState)
    (rest : List Token) (hrow : st.rowNumber ≠ 1) :
    parseLoop st (c.tokens ++ rest) =
      parseLoop { st with dataValues := st.dataValues ++ [c.text.Raw] } rest := by
  obtain ⟨hbefore, hspan, hclass, htext, hafter⟩ := hc
  unfold CellMarkup.tokens
  rw [List.append_assoc, parseLoop_fillers _ hbefore, List.cons_append, List.cons_append,
    parseLoop_span_text st c.span c.text _ hspan hrow ((spanFound_iff _).mpr hclass) htext,
    parseLoop_fillers _ hafter]

theorem parseLoop_cells (cells : List CellMarkup) (hc : ∀ c ∈ cells, c.wellFormed) :
    ∀ (st : ParseState) (rest : List Token), st.rowNumber ≠ 1 →
      parseLoop st (cells.flatMap CellMarkup.tokens ++ rest) =
        parseLoop { st with dataValues := st.dataValues ++ cells.map (fun c => c.text.Raw) }
          rest := by
  induction cells with
  | nil =>
    intro st rest _
    simp
  | cons c cells ih =>
    intro st rest hrow
    rw [List.flatMap_cons, List.append_assoc,
      parseLoop_cell c (hc c (List.mem_cons_self _ _)) st _ hrow,
      ih (fun d hd => hc d (List.mem_cons_of_mem _ hd))
        { st with dataValues := st.dataValues ++ [c.text.Raw] } rest hrow]
    simp

theorem parseLoop_row (r : RowMarkup) (hr : r.wellFormed) (st : ParseState)
    (rest : List Token) (hrow : 1 ≤ st.rowNumber) :
    parseLoop st (r.tokens ++ rest) =
      parseLoop (endRow { st with rowNumber := st.rowNumber + 1, dataValues := r.values })
        rest := by
  obtain ⟨hbefore, hstart, hlead, hcells, hclose⟩ := hr
  unfold RowMarkup.tokens RowMarkup.values
  rw [List.append_assoc, parseLoop_fillers _ hbefore, List.cons_append,
    parseLoop_tr st r.start _ hstart, List.append_assoc, parseLoop_fillers _ hlead,
    List.append_assoc, parseLoop_cells _ hcells _ _ (by simp only; omega),
    List.singleton_append, parseLoop_tr_end _ r.close rest hclose]
  simp only [List.nil_append]
  have key : ∀ (S : ParseState) (c1 c2 : Nat),
      parseLoop (endRow { S with colNumber := c1 }) rest =
        parseLoop (endRow { S with colNumber := c2 }) rest := fun S c1 c2 => by
    rw [endRow_colNumber S c1, endRow_colNumber S c2, parseLoop_colNumber (endRow S) rest c1,
      parseLoop_colNumber (endRow S) rest c2]
  exact key ⟨st.stats, st.rowNumber + 1, st.colNumber,
    List.map (fun c => c.text.Raw) r.cells, st.previousStat⟩ 0 st.colNumber

theorem parseLoop_rows (rows : List RowMarkup) (hrows : ∀ r ∈ rows, r.wellFormed)
    (tail : List Token) (htail : ∀ t ∈ tail, filler t) :
    ∀ st : ParseState, 1 ≤ st.rowNumber →
      parseLoop st (rows.flatMap RowMarkup.tokens ++ tail) =
        (st.stats ++ mapRows st.previousStat (rows.map RowMarkup.values), none) := by
  induction rows with
  | nil =>
    intro st _
    have := parseLoop_fillers tail htail st []
    rw [List.append_nil] at this
    simp [this, mapRows, parseLoop_nil]
  | cons r rows ih =>
    intro st hrow
    rw [List.flatMap_cons, List.append_assoc,
      parseLoop_row r (hrows r (List.mem_cons_self _ _)) st _ hrow,
      ih (fun d hd => hrows d (List.mem_cons_of_mem _ hd)), List.map_cons, mapRows]
    · unfold endRow
      dsimp only
      cases makeStat r.values st.previousStat with
      | none => rfl
      | some stat => simp
    · unfold endRow
      dsimp only
      split <;> simp

/-- C18: for a token stream made of a `table` start tag, a header row (the
first `tr` start tag up to its end tag), and then data rows that are each a
`tr` start tag, cells holding one recognized span immediately followed by a
text token, and a `tr` end tag, `parseStats` returns exactly the records that
`makeStat` gives for the rows' lists of texts in document order, each with the
last record produced so far as previous record (none at first); a row for
which `makeStat` yields nothing adds nothing. -/
theorem parseStats_of_table (table headStart headEnd : Token)
    (between headBody tail : List Token) (rows : List RowMarkup)
    (htable : isStartTag table "table") (hbetween : ∀ t ∈ between, filler t)
    (hheadStart : isStartTag headStart "tr") (hheadBody : ∀ t ∈ headBody, insideRow t)
    (hheadEnd : isEndTag headEnd "tr") (hrows : ∀ r ∈ rows, r.wellFormed)
    (htail : ∀ t ∈ tail, filler t) :
    parseStats (table :: (between ++ headStart :: (headBody ++ headEnd ::
        (rows.flatMap RowMarkup.tokens ++ tail)))) =
      (mapRows none (rows.map RowMarkup.values), none) := by
  unfold parseStats
  rw [parseLoop_table _ table _ htable, parseLoop_fillers _ hbetween,
    parseLoop_tr _ headStart _ hheadStart, parseLoop_header_tokens _ hheadBody _ _ rfl,
    parseLoop_tr_end _ headEnd _ hheadEnd, endRow_of_no_values _ rfl,
    parseLoop_rows rows hrows tail htail _ (le_refl _)]
  rfl

/-- Witness of C18: a table with a header row of two cells and the data rows
LAN1, Up, 10, 20, 0, 100, 200, 1h and LAN2, Up, 999, 999, 999, 999, 999, 1h
gives two records, the second with the counters 10, 20, 0, 100, 200. -/
theorem parseStats_of_table_witness :
    parseStats
      ({ Kind := TokenType.StartTagToken, Data := "table" } ::
        ([{ Kind := TokenType.TextToken, Data := "\n", Raw := "\n" }] ++
         { Kind := TokenType.StartTagToken, Data := "tr" } ::
          ((plainCell "Port").tokens ++ (plainCell "Status").tokens ++
           { Kind := TokenType.EndTagToken, Data := "tr" } ::
            ([plainRow ["LAN1", "Up", "10", "20", "0", "100", "200", "1h"],
              plainRow ["LAN2", "Up", "999", "999", "999", "999", "999", "1h"]].flatMap
                RowMarkup.tokens ++
             [{ Kind := TokenType.EndTagToken, Data := "table" }])))) =
      ([{ Port := "LAN1", Status := "Up", TxPackets := 10, RxPackets := 20, Collisions := 0,
          TxBytesPerSecond := 100, RxBytesPerSecond := 200, Uptime := 3600000000000 },
        { Port := "LAN2", Status := "Up", TxPackets := 10, RxPackets := 20, Collisions := 0,
          TxBytesPerSecond := 100, RxBytesPerSecond := 200, Uptime := 3600000000000 }],
       none) :=
  (parseStats_of_table
    { Kind := TokenType.StartTagToken, Data := "table" }
    { Kind := TokenType.StartTagToken, Data := "tr" }
    { Kind := TokenType.EndTagToken, Data := "tr" }
    [{ Kind := TokenType.TextToken, Data := "\n", Raw := "\n" }]
    ((plainCell "Port").tokens ++ (plainCell "Status").tokens)
    [{ Kind := TokenType.EndTagToken, Data := "table" }]
    [plainRow ["LAN1", "Up", "10", "20", "0", "100", "200", "1h"],
     plainRow ["LAN2", "Up", "999", "999", "999", "999", "999", "1h"]]
    (by decide) (by decide) (by decide) (by decide) (by decide) (by decide) (by decide)).trans
    (by decide)

end Genie
